import Mathlib

/-!
Shallow embedding of the libcyaml load engine (`src/load.c`) and proofs of the
spec claims about it.

Modelling conventions:
* Machine memory is a heap of allocations: `Heap` is a list of blocks, a block
  is a list of byte values (each `< 256` where written by the model).  A C
  pointer is a `Ptr`: block index plus byte offset.  `realloc` never changes a
  block's index in this model (C may move the block; nothing in the verified
  code depends on numeric addresses, only on the pointer slots rewritten by the
  code itself, which the model updates exactly where the code does).
* The `libyaml` producer is a list of events; an exhausted list models the
  producer failing (`yaml_parser_parse` returning 0).
* `malloc`/`realloc`/`calloc` outcomes are driven by an oracle `List Bool`
  (head decides the next allocation; an empty oracle means success), so OOM
  paths are expressible.
* A C `assert` failure (or the undefined behaviour of calling a NULL function
  pointer with NDEBUG) aborts the process; it is modelled as the distinguished
  result `RVal.assertFail`, distinct from every returned error code.
* Logging (`cyaml__log`) has no observable effect on the load and is omitted;
  the `config` parameter of the entry points is modelled as `Option Unit`
  (only its NULL-ness is observed by the code under `src/`).
-/

/-- CYAML result codes (`cyaml_err_t`, declared in the public header, which is
not under `src/`; the constructors are the codes named by the spec, section 7).
The source name of the producer-failure code ends in a word this development
cannot use as a suffix, so it is abbreviated to `CYAML_ERR_LIBYAML_PARSE`. -/
inductive cyaml_err where
  | CYAML_OK
  | CYAML_ERR_OOM
  | CYAML_ERR_ALIAS
  | CYAML_ERR_FILE_OPEN
  | CYAML_ERR_INVALID_KEY
  | CYAML_ERR_INVALID_VALUE
  | CYAML_ERR_INTERNAL_ERROR
  | CYAML_ERR_UNEXPECTED_EVENT
  | CYAML_ERR_BAD_TYPE_IN_SCHEMA
  | CYAML_ERR_BAD_PARAM_NULL_CONFIG
  | CYAML_ERR_BAD_PARAM_NULL_SCHEMA
  | CYAML_ERR_BAD_PARAM_NULL_DATA
  | CYAML_ERR_BAD_TOP_LEVEL_TYPE
  | CYAML_ERR_LIBYAML_PARSER_INIT
  | CYAML_ERR_LIBYAML_PARSE
deriving DecidableEq, Repr

open cyaml_err

/-- Result of an engine function: either a returned `cyaml_err_t`, or an
aborted process (failed `assert` / undefined behaviour, never returned). -/
inductive RVal where
  | ret (e : cyaml_err)
  | assertFail
deriving DecidableEq, Repr

/-- YAML event kinds (`yaml_event_type_t` of libyaml / `cyaml_event_t` flags).
The CYAML mask is a set of these; the bit-flag representation of `load.c` is
modelled as list membership. -/
inductive yaml_event_type where
  | noEvent
  | streamStart
  | streamEnd
  | docStart
  | docEnd
  | alias
  | scalar
  | seqStart
  | seqEnd
  | mappingStart
  | mappingEnd
deriving DecidableEq, Repr

/-- A produced YAML event.  `value` is `event->data.scalar.value`, meaningful
for scalar events (the code reads it only there, except for the STRING branch
of the placement engine, where the model mirrors the read). -/
structure yaml_event where
  type : yaml_event_type
  value : String
deriving DecidableEq, Repr

/-- CYAML schema node kinds (`cyaml_type`, public header). -/
inductive cyaml_type where
  | CYAML_INT
  | CYAML_UINT
  | CYAML_BOOL
  | CYAML_ENUM
  | CYAML_FLAGS
  | CYAML_STRING
  | CYAML_MAPPING
  | CYAML_SEQUENCE
  | CYAML_SEQUENCE_FIXED
  | CYAML_IGNORE
deriving DecidableEq, Repr

open cyaml_type

mutual
/-- A CYAML schema node (`cyaml_schema_type_t`).  Fields, in order: node kind;
the `CYAML_FLAG_POINTER` bit of `flags` (the only flag the load engine reads);
`data_size`; the mapping field list (NULL-key-terminated array, modelled as a
list); the sequence element schema (`sequence.schema`, NULL when absent);
`sequence.count_offset`; `sequence.count_size`. -/
inductive cyaml_schema_type where
  | mk (type : cyaml_type) (flagPointer : Bool) (data_size : Nat)
       (mapSchema : List cyaml_schema_mapping)
       (seqSchema : Option cyaml_schema_type)
       (count_offset : Nat) (count_size : Nat)

/-- One mapping field (`cyaml_schema_mapping_t`): key, byte offset into the
parent aggregate, child schema. -/
inductive cyaml_schema_mapping where
  | mk (key : String) (data_offset : Nat) (value : cyaml_schema_type)
end

def cyaml_schema_type.type : cyaml_schema_type → cyaml_type
  | .mk t _ _ _ _ _ _ => t

def cyaml_schema_type.flagPointer : cyaml_schema_type → Bool
  | .mk _ f _ _ _ _ _ => f

def cyaml_schema_type.data_size : cyaml_schema_type → Nat
  | .mk _ _ s _ _ _ _ => s

def cyaml_schema_type.mapSchema : cyaml_schema_type → List cyaml_schema_mapping
  | .mk _ _ _ m _ _ _ => m

def cyaml_schema_type.seqSchema : cyaml_schema_type → Option cyaml_schema_type
  | .mk _ _ _ _ s _ _ => s

def cyaml_schema_type.count_offset : cyaml_schema_type → Nat
  | .mk _ _ _ _ _ o _ => o

def cyaml_schema_type.count_size : cyaml_schema_type → Nat
  | .mk _ _ _ _ _ _ s => s

def cyaml_schema_mapping.key : cyaml_schema_mapping → String
  | .mk k _ _ => k

def cyaml_schema_mapping.data_offset : cyaml_schema_mapping → Nat
  | .mk _ o _ => o

def cyaml_schema_mapping.value : cyaml_schema_mapping → cyaml_schema_type
  | .mk _ _ v => v

/-- A machine pointer: heap block index and byte offset within the block. -/
structure Ptr where
  block : Nat
  off : Nat
deriving DecidableEq, Repr

/-- The heap: block index to byte contents. -/
abbrev Heap := List (List Nat)

/-- Numeric value of a pointer as written into an 8-byte pointer slot
(`(uint64_t)value_data` in the source).  Blocks are laid out at distinct
addresses; `+ 1` keeps every encoded pointer non-NULL. -/
def encodePtr (p : Ptr) : Nat := (p.block + 1) * 2 ^ 32 + p.off

/-- `n` zero bytes. -/
def zeros (n : Nat) : List Nat := List.replicate n 0

/-- Overwrite `b` starting at `off` with the given bytes (C buffer store). -/
def listWriteAt : List Nat → Nat → List Nat → List Nat
  | b, _, [] => b
  | b, off, v :: vs => listWriteAt (b.set off v) (off + 1) vs

/-- The low-order `size` bytes of `value`, least significant first
(host little-endian, as the spec's design notes fix for the data writer). -/
def toBytesLE : Nat → Nat → List Nat
  | _, 0 => []
  | value, n + 1 => value % 256 :: toBytesLE (value / 256) n

/-- `size` bytes of heap `h` at `p`, when the whole range is inside `p`'s
block. -/
def readBytesAt (h : Heap) (p : Ptr) (size : Nat) : Option (List Nat) :=
  match h.get? p.block with
  | none => none
  | some b => if p.off + size ≤ b.length then some ((b.drop p.off).take size) else none

/-- Modelled from the spec: the data writer (`cyaml_data_write`, in `data.h`
which is not under `src/`).  "Store an integer of N bytes at a target address,
honoring target width"; the design notes fix host byte order (little-endian
here).  A write outside any allocation is undefined behaviour in C; the model
returns `CYAML_ERR_INTERNAL_ERROR` there and leaves the heap unchanged (no
claim exercises that path). -/
def cyaml_data_write (value : Nat) (entry_size : Nat) (p : Ptr) (h : Heap) :
    cyaml_err × Heap :=
  match h.get? p.block with
  | none => (CYAML_ERR_INTERNAL_ERROR, h)
  | some b =>
      if p.off + entry_size ≤ b.length then
        (CYAML_OK, h.set p.block (listWriteAt b p.off (toBytesLE value entry_size)))
      else (CYAML_ERR_INTERNAL_ERROR, h)

/-- `realloc` semantics on a block's bytes: the common prefix is preserved and
the block is resized.  C leaves a grown tail uninitialised; the single growing
caller (`cyaml__data_handle_pointer`) `memset`s exactly that tail to zero
immediately, so the model fills with zero. -/
def reallocPreserve (old : List Nat) (newSize : Nat) : List Nat :=
  (old ++ zeros (newSize - old.length)).take newSize

/-- Result of the C `strtoll`: the value, whether any digits were consumed
(`end != value`), and whether the out-of-range indicator (`ERANGE`) was set. -/
structure StrtollRes where
  val : Int
  consumed : Bool
  erange : Bool
deriving DecidableEq, Repr

/-- `isspace` characters skipped by `strtoll`. -/
def isSpaceC (c : Char) : Bool :=
  c = ' ' || c = '\t' || c = '\n' || c = '\r' || c = Char.ofNat 11 || c = Char.ofNat 12

/-- Value of `c` as a digit in bases up to 16, if any. -/
def digitValHex (c : Char) : Option Nat :=
  if '0' ≤ c ∧ c ≤ '9' then some (c.toNat - 48)
  else if 'a' ≤ c ∧ c ≤ 'f' then some (c.toNat - 87)
  else if 'A' ≤ c ∧ c ≤ 'F' then some (c.toNat - 55)
  else none

/-- Value of `c` as a digit in `base`, if any. -/
def digitVal (base : Nat) (c : Char) : Option Nat :=
  match digitValHex c with
  | some v => if v < base then some v else none
  | none => none

/-- Longest digit prefix of `cs` in `base`, and the rest. -/
def takeDigits (base : Nat) : List Char → List Nat × List Char
  | [] => ([], [])
  | c :: cs =>
      match digitVal base c with
      | some v =>
          match takeDigits base cs with
          | (ds, rest) => (v :: ds, rest)
      | none => ([], c :: cs)

/-- Accumulate the digits in `base`, clamping to `long long` range as `strtoll`
does (`LLONG_MIN`/`LLONG_MAX` with `ERANGE`). -/
def strtollAcc (neg : Bool) (base : Nat) (ds : List Nat) : StrtollRes :=
  if ds = [] then { val := 0, consumed := false, erange := false }
  else
    let m : Nat := ds.foldl (fun a d => a * base + d) 0
    let bound : Nat := if neg then 2 ^ 63 else 2 ^ 63 - 1
    if m > bound then
      { val := if neg then -(2 ^ 63 : Int) else (2 ^ 63 - 1 : Int),
        consumed := true, erange := true }
    else
      { val := if neg then -(m : Int) else (m : Int), consumed := true, erange := false }

/-- `strtoll(value, &end, 0)`: skip whitespace, optional sign, then base
autodetection — `0x`/`0X` followed by a hex digit is hex, a leading `0`
otherwise is octal (the `0` itself counting as a consumed digit), anything
else is decimal. -/
def strtoll (s : String) : StrtollRes :=
  let cs := s.data.dropWhile isSpaceC
  let (neg, cs) :=
    match cs with
    | '-' :: t => (true, t)
    | '+' :: t => (false, t)
    | t => (false, t)
  match cs with
  | '0' :: c2 :: rest =>
      if (c2 = 'x' || c2 = 'X') && (match rest with
          | r :: _ => (digitVal 16 r).isSome
          | [] => false) then
        strtollAcc neg 16 (takeDigits 16 rest).1
      else
        strtollAcc neg 8 (takeDigits 8 ('0' :: c2 :: rest)).1
  | cs => strtollAcc neg (if cs.head? = some '0' then 8 else 10) (takeDigits (if cs.head? = some '0' then 8 else 10) cs).1

/-- CYAML load state machine states (`cyaml_state_e`).  The C comparison
`state > CYAML_STATE_START` in the drive loop is `state ≠ START` (START is the
first enumerator). -/
inductive cyaml_state_e where
  | CYAML_STATE_START
  | CYAML_STATE_IN_STREAM
  | CYAML_STATE_IN_DOC
  | CYAML_STATE_IN_MAPPING
  | CYAML_STATE_IN_SEQUENCE
deriving DecidableEq, Repr

open cyaml_state_e

/-- Mapping sub-states (`cyaml_mapping_state_e`).  `CYAML_MAPPING_STATE_KEY`
is the first enumerator, hence the zero-initialised default of a frame. -/
inductive cyaml_mapping_state_e where
  | CYAML_MAPPING_STATE_KEY
  | CYAML_MAPPING_STATE_VALUE
deriving DecidableEq, Repr

open cyaml_mapping_state_e

/-- `CYAML_SCHEMA_IDX_NONE`: no mapping schema entry found for a key. -/
def CYAML_SCHEMA_IDX_NONE : Nat := 0xffff

/-- One stack entry (`cyaml_state_t`).  The C anonymous union is modelled with
both member groups present; each is read only in the matching machine state.
The zero-initialisation `cyaml_state_t s = {...}` of the push path gives the
defaults recorded here (sub-state KEY, index 0, count 0, NULL data).  The
unused `mapping.entries_count` field is omitted (never read or written by
`load.c`). -/
structure cyaml_state where
  state : cyaml_state_e
  schema : cyaml_schema_type
  /-- `mapping.schema`: the field list captured at push time. -/
  mappingSchema : List cyaml_schema_mapping
  /-- `mapping.state`. -/
  mappingState : cyaml_mapping_state_e
  /-- `mapping.schema_idx`. -/
  schema_idx : Nat
  /-- `sequence.data`: block id of the element array allocation, `none` = NULL. -/
  seqData : Option Nat
  /-- `sequence.count_data`: location of the parent's count field.  The
  zero-initialised default (NULL in C) is block 0 / offset 0; it is read only
  in sequence frames, where the push path always sets it. -/
  count_data : Ptr
  /-- `sequence.count`. -/
  count : Nat
  /-- `sequence.count_size`. -/
  count_size : Nat
  data : Ptr

/-- The loading context (`cyaml_ctx_t`).  `stack` holds the frames with the
top (`ctx->state`) at the head; `stack_idx` is `stack.length`.  The producer
(`parser`) is the `events` list; `allocOk` is the allocation oracle. -/
structure cyaml_ctx where
  stack : List cyaml_state
  stack_max : Nat
  heap : Heap
  allocOk : List Bool
  events : List yaml_event

/-- Draw the next allocation outcome from the oracle (empty oracle: success). -/
def nextAllocOk : List Bool → Bool × List Bool
  | [] => (true, [])
  | b :: t => (b, t)

/-- New value of `stack_max` on growth: `max = ctx->stack_max + 16` in
`uint32_t` arithmetic. -/
def stackEnsureNewMax (m : Nat) : Nat := (m + 16) % 2 ^ 32

/-- `cyaml__stack_ensure`: make room for one more frame.  Stack contents are
preserved by `realloc`; the C re-computation of `ctx->state` after the move is
representation-internal and has no counterpart in the list model. -/
def cyaml__stack_ensure (ctx : cyaml_ctx) : cyaml_err × cyaml_ctx :=
  let max := stackEnsureNewMax ctx.stack_max
  if ctx.stack.length < ctx.stack_max then (CYAML_OK, ctx)
  else
    let (ok, rest) := nextAllocOk ctx.allocOk
    if ok then (CYAML_OK, { ctx with stack_max := max, allocOk := rest })
    else (CYAML_ERR_OOM, { ctx with allocOk := rest })

/-- `cyaml__stack_push`: push a frame for `state` evaluating `schema` at
`data`.  The IN_MAPPING branch asserts `schema->type == CYAML_MAPPING`; the
IN_SEQUENCE branch reads the parent frame (`ctx->state`) to locate the count
field, and rejects non-sequence schemas with `CYAML_ERR_INTERNAL_ERROR`. -/
def cyaml__stack_push (ctx : cyaml_ctx) (state : cyaml_state_e)
    (schema : cyaml_schema_type) (data : Ptr) : RVal × cyaml_ctx :=
  let s : cyaml_state :=
    { state := state, schema := schema, data := data,
      mappingSchema := [], mappingState := CYAML_MAPPING_STATE_KEY,
      schema_idx := 0, seqData := none, count_data := ⟨0, 0⟩,
      count := 0, count_size := 0 }
  match cyaml__stack_ensure ctx with
  | (e, ctx) =>
    if e ≠ CYAML_OK then (.ret e, ctx)
    else
      match state with
      | CYAML_STATE_IN_MAPPING =>
          if schema.type ≠ CYAML_MAPPING then (.assertFail, ctx)
          else
            let s := { s with mappingSchema := schema.mapSchema,
                              mappingState := CYAML_MAPPING_STATE_KEY }
            (.ret CYAML_OK, { ctx with stack := s :: ctx.stack })
      | CYAML_STATE_IN_SEQUENCE =>
          if schema.type = CYAML_SEQUENCE_FIXED ∨ schema.type = CYAML_SEQUENCE then
            match ctx.stack.head? with
            | none => (.assertFail, ctx)
            | some parent =>
                let s := { s with
                  count_data := ⟨parent.data.block, parent.data.off + schema.count_offset⟩,
                  count_size := schema.count_size }
                (.ret CYAML_OK, { ctx with stack := s :: ctx.stack })
          else (.ret CYAML_ERR_INTERNAL_ERROR, ctx)
      | _ => (.ret CYAML_OK, { ctx with stack := s :: ctx.stack })

/-- `cyaml__stack_pop`: discard the top frame; popping an empty stack is an
internal error. -/
def cyaml__stack_pop (ctx : cyaml_ctx) : cyaml_err × cyaml_ctx :=
  match ctx.stack with
  | [] => (CYAML_ERR_INTERNAL_ERROR, ctx)
  | _ :: t => (CYAML_OK, { ctx with stack := t })

/-- `cyaml_in_sequence`: the current state is IN_SEQUENCE. -/
def cyaml_in_sequence (ctx : cyaml_ctx) : Bool :=
  match ctx.stack.head? with
  | some st => st.state = CYAML_STATE_IN_SEQUENCE
  | none => false

/-- Replace the top frame (writes through `ctx->state` in C). -/
def updTop (ctx : cyaml_ctx) (f : cyaml_state → cyaml_state) : cyaml_ctx :=
  match ctx.stack with
  | [] => ctx
  | s :: t => { ctx with stack := f s :: t }

/-- `cyaml__data_handle_pointer`: the placement engine.  When `schema` carries
`CYAML_FLAG_POINTER`, create or (inside a sequence) extend the allocation,
zero the fresh tail, record the new block in the sequence state, write the
allocation's address into the slot `*value_data_io`, and return the new data
address.  Returns the possibly updated context and value-data pointer. -/
def cyaml__data_handle_pointer (ctx : cyaml_ctx) (schema : cyaml_schema_type)
    (event : yaml_event) (value_data_io : Ptr) : cyaml_err × cyaml_ctx × Ptr :=
  if schema.flagPointer then
    let delta : Nat :=
      if schema.type = CYAML_STRING then event.value.length + 1 else schema.data_size
    let inSeq := cyaml_in_sequence ctx
    let (offset, oldId) : Nat × Option Nat :=
      match ctx.stack.head? with
      | some st =>
          if st.state = CYAML_STATE_IN_SEQUENCE then
            (schema.data_size * st.count, st.seqData)
          else (0, none)
      | none => (0, none)
    let (ok, rest) := nextAllocOk ctx.allocOk
    let ctx := { ctx with allocOk := rest }
    if ok = false then (CYAML_ERR_OOM, ctx, value_data_io)
    else
      let (heap2, newId) : Heap × Nat :=
        match oldId with
        | none => (ctx.heap ++ [zeros (offset + delta)], ctx.heap.length)
        | some i =>
            match ctx.heap.get? i with
            | none => (ctx.heap, i)
            | some b =>
                (ctx.heap.set i
                  (listWriteAt (reallocPreserve b (offset + delta)) offset (zeros delta)), i)
      let ctx := { ctx with heap := heap2 }
      let ctx := if inSeq then updTop ctx (fun st => { st with seqData := some newId }) else ctx
      match cyaml_data_write (encodePtr ⟨newId, 0⟩) 8 value_data_io ctx.heap with
      | (e, h2) =>
          if e ≠ CYAML_OK then (e, { ctx with heap := h2 }, value_data_io)
          else (CYAML_OK, { ctx with heap := h2 }, ⟨newId, 0⟩)
  else (CYAML_OK, ctx, value_data_io)

/-- `cyaml__read_int`: decode a `CYAML_INT` scalar.  `strtoll` with base
autodetection; reject when no digits were consumed, the range indicator is
set, or the value falls outside the bounds computed from `data_size`; on
success hand the value to the data writer at width `data_size`. -/
def cyaml__read_int (schema : cyaml_schema_type) (value : String) (data : Ptr)
    (h : Heap) : cyaml_err × Heap :=
  let r := strtoll value
  let max : Int := (((2 ^ 64 - 1) >>> ((8 - schema.data_size) * 8)) / 2 : Nat)
  let min : Int := (-max) - 1
  if r.consumed = false ∨ r.erange = true ∨ r.val < min ∨ max < r.val then
    (CYAML_ERR_INVALID_VALUE, h)
  else
    cyaml_data_write ((r.val % (2 ^ 64 : Int)).toNat) schema.data_size data h

/-- `cyaml__read_scalar_value`: dispatch through the scalar reader table
`fn[CYAML__TYPE_COUNT]`.  Only `fn[CYAML_INT]` is populated in this source;
for every other kind `assert(fn[schema->type] != NULL)` fails. -/
def cyaml__read_scalar_value (schema : cyaml_schema_type) (data : Ptr)
    (event : yaml_event) (h : Heap) : RVal × Heap :=
  match schema.type with
  | CYAML_INT =>
      match cyaml__read_int schema event.value data h with
      | (e, h2) => (.ret e, h2)
  | _ => (.assertFail, h)

/-- `cyaml__read_value`: the value handler.  For every non-sequence schema
kind the placement engine runs first and its result is discarded (source line
529: the call's return value is not assigned).  Then dispatch on the schema
kind; the C `default:` branch returning `CYAML_ERR_BAD_TYPE_IN_SCHEMA` is
unreachable for the closed `cyaml_type` enumeration modelled here. -/
def cyaml__read_value (ctx : cyaml_ctx) (schema : cyaml_schema_type)
    (data : Ptr) (event : yaml_event) : RVal × cyaml_ctx :=
  let cyaml_event := event.type
  let (ctx, data) :=
    if schema.type ≠ CYAML_SEQUENCE ∧ schema.type ≠ CYAML_SEQUENCE_FIXED then
      match cyaml__data_handle_pointer ctx schema event data with
      | (_, c, d) => (c, d)
    else (ctx, data)
  match schema.type with
  | CYAML_INT | CYAML_UINT | CYAML_BOOL | CYAML_ENUM | CYAML_STRING =>
      if cyaml_event ≠ yaml_event_type.scalar then (.ret CYAML_ERR_INVALID_VALUE, ctx)
      else
        match cyaml__read_scalar_value schema data event ctx.heap with
        | (r, h2) => (r, { ctx with heap := h2 })
  | CYAML_FLAGS => (.ret CYAML_OK, ctx)
  | CYAML_MAPPING =>
      if cyaml_event ≠ yaml_event_type.mappingStart then (.ret CYAML_ERR_INVALID_VALUE, ctx)
      else cyaml__stack_push ctx CYAML_STATE_IN_MAPPING schema data
  | CYAML_SEQUENCE | CYAML_SEQUENCE_FIXED =>
      if cyaml_event ≠ yaml_event_type.seqStart then (.ret CYAML_ERR_INVALID_VALUE, ctx)
      else cyaml__stack_push ctx CYAML_STATE_IN_SEQUENCE schema data
  | CYAML_IGNORE => (.ret CYAML_OK, ctx)

/-- `cyaml__new_sequence_entry`: append one entry to the sequence on top of
the stack.  Run the placement engine with the sequence schema (checking its
result), step to the new entry's slot, increment the element count, write it
into the parent's count field unless the sequence is `CYAML_SEQUENCE_FIXED`,
then hand the event to the value handler with the element schema.  The C code
reads the frame through `ctx->state` after the placement call; the model
refetches the (possibly updated) top frame accordingly.  A missing top frame
or element schema is undefined behaviour in C (unreachable from the sequence
handler with a well-formed schema), modelled as `assertFail`. -/
def cyaml__new_sequence_entry (ctx : cyaml_ctx) (event : yaml_event) :
    RVal × cyaml_ctx :=
  match ctx.stack.head? with
  | none => (.assertFail, ctx)
  | some state0 =>
    let schema := state0.schema
    match cyaml__data_handle_pointer ctx schema event state0.data with
    | (e, ctx, value_data) =>
      if e ≠ CYAML_OK then (.ret e, ctx)
      else
        match ctx.stack with
        | [] => (.assertFail, ctx)
        | st :: rest =>
          let slot : Ptr := ⟨value_data.block, value_data.off + schema.data_size * st.count⟩
          let newCount := st.count + 1
          let ctx := { ctx with stack := { st with count := newCount } :: rest }
          let afterCount : cyaml_err × cyaml_ctx :=
            if schema.type ≠ CYAML_SEQUENCE_FIXED then
              match cyaml_data_write newCount st.count_size st.count_data ctx.heap with
              | (e2, h2) => (e2, { ctx with heap := h2 })
            else (CYAML_OK, ctx)
          match afterCount with
          | (e2, ctx) =>
            if e2 ≠ CYAML_OK then (.ret e2, ctx)
            else
              match schema.seqSchema with
              | none => (.assertFail, ctx)
              | some elemSchema => cyaml__read_value ctx elemSchema slot event

/-- `cyaml_get_next_event`: the event pump.  Pull one event from the producer
(an exhausted producer models `yaml_parser_parse` failing); reject alias
events; reject event kinds outside `mask`; otherwise yield the event.  The
consumed event is removed from the stream in every case (`yaml_event_delete`
on the reject paths, caller-owned on success). -/
def cyaml_get_next_event (ctx : cyaml_ctx) (mask : List yaml_event_type) :
    cyaml_err × Option yaml_event × cyaml_ctx :=
  match ctx.events with
  | [] => (CYAML_ERR_LIBYAML_PARSE, none, ctx)
  | e :: rest =>
      let ctx := { ctx with events := rest }
      if e.type = yaml_event_type.alias then (CYAML_ERR_ALIAS, none, ctx)
      else if ¬ (mask.contains e.type) then (CYAML_ERR_UNEXPECTED_EVENT, none, ctx)
      else (CYAML_OK, some e, ctx)

/-- `cyaml__read_start`: handler for `CYAML_STATE_START`.  Accepts only
STREAM_START and pushes IN_STREAM with the sentinel's schema and data.  The C
`default:` arm of the switch asserts that the event is in the mask. -/
def cyaml__read_start (ctx : cyaml_ctx) : RVal × cyaml_ctx :=
  let mask := [yaml_event_type.streamStart]
  match cyaml_get_next_event ctx mask with
  | (e, ev?, ctx) =>
    if e ≠ CYAML_OK then (.ret e, ctx)
    else
      match ev? with
      | some ev =>
          match ev.type with
          | yaml_event_type.streamStart =>
              match ctx.stack.head? with
              | some top => cyaml__stack_push ctx CYAML_STATE_IN_STREAM top.schema top.data
              | none => (.assertFail, ctx)
          | _ => (.assertFail, ctx)
      | none => (.assertFail, ctx)

/-- `cyaml__read_stream`: handler for `CYAML_STATE_IN_STREAM`.  DOC_START
pushes IN_DOC; STREAM_END pops. -/
def cyaml__read_stream (ctx : cyaml_ctx) : RVal × cyaml_ctx :=
  let mask := [yaml_event_type.docStart, yaml_event_type.streamEnd]
  match cyaml_get_next_event ctx mask with
  | (e, ev?, ctx) =>
    if e ≠ CYAML_OK then (.ret e, ctx)
    else
      match ev? with
      | some ev =>
          match ev.type with
          | yaml_event_type.docStart =>
              match ctx.stack.head? with
              | some top => cyaml__stack_push ctx CYAML_STATE_IN_DOC top.schema top.data
              | none => (.assertFail, ctx)
          | yaml_event_type.streamEnd =>
              match cyaml__stack_pop ctx with
              | (e2, ctx) => if e2 ≠ CYAML_OK then (.ret e2, ctx) else (.ret CYAML_OK, ctx)
          | _ => (.assertFail, ctx)
      | none => (.assertFail, ctx)

/-- `cyaml__read_doc`: handler for `CYAML_STATE_IN_DOC`.  MAPPING_START pushes
IN_MAPPING with the document schema and data; DOC_END pops. -/
def cyaml__read_doc (ctx : cyaml_ctx) : RVal × cyaml_ctx :=
  let mask := [yaml_event_type.mappingStart, yaml_event_type.docEnd]
  match cyaml_get_next_event ctx mask with
  | (e, ev?, ctx) =>
    if e ≠ CYAML_OK then (.ret e, ctx)
    else
      match ev? with
      | some ev =>
          match ev.type with
          | yaml_event_type.mappingStart =>
              match ctx.stack.head? with
              | some top => cyaml__stack_push ctx CYAML_STATE_IN_MAPPING top.schema top.data
              | none => (.assertFail, ctx)
          | yaml_event_type.docEnd =>
              match cyaml__stack_pop ctx with
              | (e2, ctx) => if e2 ≠ CYAML_OK then (.ret e2, ctx) else (.ret CYAML_OK, ctx)
          | _ => (.assertFail, ctx)
      | none => (.assertFail, ctx)

/-- `cyaml__get_entry_from_mapping_schema` helper: scan with running index. -/
def getEntryFromMappingGo : List cyaml_schema_mapping → String → Nat → Nat
  | [], _, _ => CYAML_SCHEMA_IDX_NONE
  | e :: rest, key, index =>
      if e.key = key then index else getEntryFromMappingGo rest key (index + 1)

/-- `cyaml__get_entry_from_mapping_schema`: index of the field whose key
matches, or `CYAML_SCHEMA_IDX_NONE`.  The C NULL-key terminator is the list
end. -/
def cyaml__get_entry_from_mapping_schema
    (mapping_schema : List cyaml_schema_mapping) (key : String) : Nat :=
  getEntryFromMappingGo mapping_schema key 0

/-- `cyaml__read_mapping_key`: IN_MAPPING sub-state KEY.  A SCALAR event is a
key: look it up (the index is stored before the no-match check), fail with
INVALID_KEY when absent, otherwise flip the sub-state to VALUE.  MAPPING_END
pops. -/
def cyaml__read_mapping_key (ctx : cyaml_ctx) : RVal × cyaml_ctx :=
  let mask := [yaml_event_type.scalar, yaml_event_type.mappingEnd]
  match cyaml_get_next_event ctx mask with
  | (e, ev?, ctx) =>
    if e ≠ CYAML_OK then (.ret e, ctx)
    else
      match ev? with
      | some ev =>
          match ev.type with
          | yaml_event_type.scalar =>
              match ctx.stack.head? with
              | none => (.assertFail, ctx)
              | some top =>
                  let idx := cyaml__get_entry_from_mapping_schema top.mappingSchema ev.value
                  let ctx := updTop ctx (fun st => { st with schema_idx := idx })
                  if idx = CYAML_SCHEMA_IDX_NONE then (.ret CYAML_ERR_INVALID_KEY, ctx)
                  else
                    (.ret CYAML_OK,
                      updTop ctx (fun st => { st with mappingState := CYAML_MAPPING_STATE_VALUE }))
          | yaml_event_type.mappingEnd =>
              match cyaml__stack_pop ctx with
              | (e2, ctx) => if e2 ≠ CYAML_OK then (.ret e2, ctx) else (.ret CYAML_OK, ctx)
          | _ => (.assertFail, ctx)
      | none => (.assertFail, ctx)

/-- `cyaml__read_mapping_value`: IN_MAPPING sub-state VALUE.  The field entry
and target address are computed before the pump runs (source order); a
`schema_idx` outside the field list would be an out-of-bounds read in C
(unreachable: the key handler only stores valid indices), modelled as
`assertFail`.  The sub-state flips back to KEY before the value handler runs
(the source comment explains the stack may be reallocated by a push). -/
def cyaml__read_mapping_value (ctx : cyaml_ctx) : RVal × cyaml_ctx :=
  match ctx.stack.head? with
  | none => (.assertFail, ctx)
  | some state0 =>
    let mask := [yaml_event_type.scalar, yaml_event_type.seqStart,
                 yaml_event_type.mappingStart]
    match state0.mappingSchema.get? state0.schema_idx with
    | none => (.assertFail, ctx)
    | some entry =>
      let data : Ptr := ⟨state0.data.block, state0.data.off + entry.data_offset⟩
      match cyaml_get_next_event ctx mask with
      | (e, ev?, ctx) =>
        if e ≠ CYAML_OK then (.ret e, ctx)
        else
          match ev? with
          | some ev =>
              let ctx := updTop ctx (fun st => { st with mappingState := CYAML_MAPPING_STATE_KEY })
              cyaml__read_value ctx entry.value data ev
          | none => (.assertFail, ctx)

/-- `cyaml__read_mapping`: dispatch on the mapping sub-state.  The trailing
`return CYAML_ERR_INTERNAL_ERROR` of the C function is unreachable for the
two-valued sub-state enumeration. -/
def cyaml__read_mapping (ctx : cyaml_ctx) : RVal × cyaml_ctx :=
  match ctx.stack.head? with
  | none => (.assertFail, ctx)
  | some top =>
      match top.mappingState with
      | CYAML_MAPPING_STATE_KEY => cyaml__read_mapping_key ctx
      | CYAML_MAPPING_STATE_VALUE => cyaml__read_mapping_value ctx

/-- `cyaml__read_sequence`: handler for `CYAML_STATE_IN_SEQUENCE`.  Any
value-introducing event appends an entry; SEQ_END pops; the C `default:` arm
returns `CYAML_ERR_INTERNAL_ERROR` (unreachable past the mask). -/
def cyaml__read_sequence (ctx : cyaml_ctx) : RVal × cyaml_ctx :=
  let mask := [yaml_event_type.mappingStart, yaml_event_type.seqStart,
               yaml_event_type.seqEnd, yaml_event_type.scalar]
  match cyaml_get_next_event ctx mask with
  | (e, ev?, ctx) =>
    if e ≠ CYAML_OK then (.ret e, ctx)
    else
      match ev? with
      | some ev =>
          match ev.type with
          | yaml_event_type.scalar | yaml_event_type.seqStart
          | yaml_event_type.mappingStart => cyaml__new_sequence_entry ctx ev
          | yaml_event_type.seqEnd =>
              match cyaml__stack_pop ctx with
              | (e2, ctx) => if e2 ≠ CYAML_OK then (.ret e2, ctx) else (.ret CYAML_OK, ctx)
          | _ => (.ret CYAML_ERR_INTERNAL_ERROR, ctx)
      | none => (.assertFail, ctx)

/-- One iteration of the drive loop: dispatch through the `fn` table on the
top frame's state.  An empty stack would dereference a NULL `ctx->state` in C
(unreachable inside the loop), modelled as `assertFail`. -/
def cyaml__load_step (ctx : cyaml_ctx) : RVal × cyaml_ctx :=
  match ctx.stack.head? with
  | none => (.assertFail, ctx)
  | some top =>
      match top.state with
      | CYAML_STATE_START => cyaml__read_start ctx
      | CYAML_STATE_IN_STREAM => cyaml__read_stream ctx
      | CYAML_STATE_IN_DOC => cyaml__read_doc ctx
      | CYAML_STATE_IN_MAPPING => cyaml__read_mapping ctx
      | CYAML_STATE_IN_SEQUENCE => cyaml__read_sequence ctx

/-- The drive loop of `cyaml__load`: call the handler for the current state;
on success keep going until the top frame is the START sentinel again
(`while (ctx.state->state > CYAML_STATE_START)`).  An empty stack at the loop
condition would dereference NULL in C (unreachable), modelled as
`assertFail`.  The loop recurses on an explicit iteration bound so that it
computes structurally; every `CYAML_OK` iteration consumes one producer
event, so a bound exceeding the producer length is never exhausted
(`load_loop_fuel_irrelevant`), and `cyaml__load` supplies exactly such a
bound.  The exhausted-bound arm (an artifact of the embedding, provably
unreachable there) yields the never-returned `assertFail`. -/
def cyaml__load_loop : Nat → cyaml_ctx → RVal × cyaml_ctx
  | 0, ctx => (.assertFail, ctx)
  | n + 1, ctx =>
    match cyaml__load_step ctx with
    | (.ret CYAML_OK, ctx2) =>
        match ctx2.stack.head? with
        | none => (.assertFail, ctx2)
        | some top =>
            if top.state = CYAML_STATE_START then (.ret CYAML_OK, ctx2)
            else cyaml__load_loop n ctx2
    | r => r

/-- Observable outcome of `cyaml__load`: the returned value, the output
pointer (`none` = `*data_out` untouched), whether the companion free routine
was invoked on the partial tree, and the final stack and heap. -/
structure cyaml_load_out where
  res : RVal
  data_out : Option Ptr
  freeCalled : Bool
  stack : List cyaml_state
  heap : Heap

/-- `cyaml__load`: the main loading function.  `calloc` the root allocation
(block 0 of a fresh heap), push the START sentinel, run the drive loop, pop
the sentinel, assert the stack is empty, and assign `*data_out` only on
success.  At the `out:` label: on any error the companion free routine
(`cyaml_free`, not under `src/`; the claim observes only its invocation,
recorded as `freeCalled`) is called on the partial tree, then the remaining
frames are popped (`while (ctx.stack_idx > 0)`) and the stack buffer freed.
A failed root `calloc` returns `CYAML_ERR_OOM` directly, before the `out:`
cleanup exists. -/
def cyaml__load (schema : cyaml_schema_type) (events : List yaml_event)
    (allocOk : List Bool) : cyaml_load_out :=
  match nextAllocOk allocOk with
  | (ok0, alloc1) =>
    if ok0 = false then
      { res := .ret CYAML_ERR_OOM, data_out := none, freeCalled := false,
        stack := [], heap := [] }
    else
      let data : Ptr := ⟨0, 0⟩
      let ctx0 : cyaml_ctx :=
        { stack := [], stack_max := 0, heap := [zeros schema.data_size],
          allocOk := alloc1, events := events }
      match cyaml__stack_push ctx0 CYAML_STATE_START schema data with
      | (.assertFail, ctx1) =>
          { res := .assertFail, data_out := none, freeCalled := false,
            stack := ctx1.stack, heap := ctx1.heap }
      | (.ret e1, ctx1) =>
        if e1 ≠ CYAML_OK then
          { res := .ret e1, data_out := none, freeCalled := true,
            stack := [], heap := ctx1.heap }
        else
          match cyaml__load_loop (ctx1.events.length + 1) ctx1 with
          | (.assertFail, ctx2) =>
              { res := .assertFail, data_out := none, freeCalled := false,
                stack := ctx2.stack, heap := ctx2.heap }
          | (.ret e2, ctx2) =>
            if e2 ≠ CYAML_OK then
              { res := .ret e2, data_out := none, freeCalled := true,
                stack := [], heap := ctx2.heap }
            else
              match cyaml__stack_pop ctx2 with
              | (e3, ctx3) =>
                if e3 ≠ CYAML_OK then
                  { res := .ret e3, data_out := none, freeCalled := true,
                    stack := [], heap := ctx3.heap }
                else
                  if ctx3.stack.length ≠ 0 then
                    { res := .assertFail, data_out := none, freeCalled := false,
                      stack := ctx3.stack, heap := ctx3.heap }
                  else
                    { res := .ret CYAML_OK, data_out := some data, freeCalled := false,
                      stack := [], heap := ctx3.heap }

/-- `cyaml__validate_load_params`: NULL checks and the top-level type check,
in source order — config, schema, schema kind, data target. -/
def cyaml__validate_load_params (config : Option Unit)
    (schema : Option cyaml_schema_type) (data_tgt : Bool) : cyaml_err :=
  match config with
  | none => CYAML_ERR_BAD_PARAM_NULL_CONFIG
  | some _ =>
    match schema with
    | none => CYAML_ERR_BAD_PARAM_NULL_SCHEMA
    | some s =>
        if s.type ≠ CYAML_MAPPING then CYAML_ERR_BAD_TOP_LEVEL_TYPE
        else if data_tgt = false then CYAML_ERR_BAD_PARAM_NULL_DATA
        else CYAML_OK

/-- `cyaml_load_data`: entry point for in-memory input.  Parameter validation
runs before the parser is initialised (`parserInitOk` models
`yaml_parser_initialize` succeeding) and before any event is produced; the
engine result is forwarded.  The `none` schema arm after successful
validation is unreachable. -/
def cyaml_load_data (events : List yaml_event) (config : Option Unit)
    (schema : Option cyaml_schema_type) (data_out : Bool)
    (parserInitOk : Bool) (allocOk : List Bool) : RVal × Option Ptr :=
  match cyaml__validate_load_params config schema data_out with
  | CYAML_OK =>
      if parserInitOk = false then (.ret CYAML_ERR_LIBYAML_PARSER_INIT, none)
      else
        match schema with
        | some s =>
            let r := cyaml__load s events allocOk
            (r.res, r.data_out)
        | none => (.assertFail, none)
  | e => (.ret e, none)

/-- Verification harness: feed a list of value events to the sequence frame on
top of the stack, one `cyaml__new_sequence_entry` call per event, stopping at
the first non-OK result.  This is exactly the sequence of calls the
IN_SEQUENCE handler makes for consecutive admitted value events whose
elements are scalars (no frame is pushed or popped in between). -/
def runSeqEntries (ctx : cyaml_ctx) : List yaml_event → RVal × cyaml_ctx
  | [] => (.ret CYAML_OK, ctx)
  | e :: es =>
      match cyaml__new_sequence_entry ctx e with
      | (.ret CYAML_OK, ctx2) => runSeqEntries ctx2 es
      | r => r

/-- Fixture: INT schema of width 4, no flags. -/
def int4W : cyaml_schema_type := .mk CYAML_INT false 4 [] none 0 0

/-- Fixture: INT schema of width 8 with the owning-pointer flag. -/
def intPtr8W : cyaml_schema_type := .mk CYAML_INT true 8 [] none 0 0

/-- Fixture: UINT schema of width 4, no flags. -/
def uint4W : cyaml_schema_type := .mk CYAML_UINT false 4 [] none 0 0

/-- Fixture: FLAGS schema. -/
def flagsSchemaW : cyaml_schema_type := .mk CYAML_FLAGS false 4 [] none 0 0

/-- Fixture: IGNORE schema. -/
def ignoreSchemaW : cyaml_schema_type := .mk CYAML_IGNORE false 4 [] none 0 0

/-- Fixture: a one-field mapping schema `{a : INT4 at offset 0}`. -/
def mapSchemaW : cyaml_schema_type :=
  .mk CYAML_MAPPING false 4 [.mk "a" 0 int4W] none 0 0

/-- Fixture: sequence of pointer-flagged INT8 elements, count field at offset
8 of the parent, 4 bytes wide. -/
def seqPtrElemW : cyaml_schema_type :=
  .mk CYAML_SEQUENCE true 8 [] (some intPtr8W) 8 4

/-- Fixture: a context whose top frame is a mapping frame over a 16-byte
parent block; allocations succeed. -/
def ctxMapW : cyaml_ctx :=
  { stack := [{ state := CYAML_STATE_IN_MAPPING, schema := mapSchemaW,
                mappingSchema := mapSchemaW.mapSchema,
                mappingState := CYAML_MAPPING_STATE_KEY, schema_idx := 0,
                seqData := none, count_data := ⟨0, 0⟩, count := 0,
                count_size := 0, data := ⟨0, 0⟩ }],
    stack_max := 16, heap := [zeros 16], allocOk := [], events := [] }

/-- Fixture: like `ctxMapW` but the next allocation fails (OOM). -/
def ctxOomW : cyaml_ctx :=
  { ctxMapW with allocOk := [false] }

/-- Fixture: a context whose top frame is a sequence frame (schema
`seqPtrElemW`) that has already admitted one element; block 1 is its 8-byte
element array. -/
def ctxSeqW : cyaml_ctx :=
  { stack := [{ state := CYAML_STATE_IN_SEQUENCE, schema := seqPtrElemW,
                mappingSchema := [], mappingState := CYAML_MAPPING_STATE_KEY,
                schema_idx := 0, seqData := some 1, count_data := ⟨0, 8⟩,
                count := 1, count_size := 4, data := ⟨0, 0⟩ }],
    stack_max := 16, heap := [zeros 16, zeros 8], allocOk := [], events := [] }

/-- Fixture: a context with one pending scalar event for the pump. -/
def pumpCtxW : cyaml_ctx :=
  { stack := [], stack_max := 0, heap := [], allocOk := [],
    events := [⟨yaml_event_type.scalar, "x"⟩] }

/-- Capacity of the stack's backing buffer after `n` growth steps, starting
from the engine's initial `stack_max = 0`: each growth applies the code's
`max = stack_max + 16` (uint32). -/
def stackCapSeq : Nat → Nat
  | 0 => 0
  | n + 1 => stackEnsureNewMax (stackCapSeq n)

/-- The growth-is-geometric reading of claim C9: some fixed ratio `q > 1`
bounds every consecutive capacity pair from below. -/
def stackGrowthGeometric : Prop :=
  ∃ q : ℚ, 1 < q ∧ ∀ n : Nat, 1 ≤ n →
    q * (stackCapSeq n : ℚ) ≤ (stackCapSeq (n + 1) : ℚ)

/-- Fixture: the engine's initial empty context. -/
def emptyCtxW : cyaml_ctx :=
  { stack := [], stack_max := 0, heap := [], allocOk := [], events := [] }

/-- The claim's "two's-complement low-order N bytes" of an integer value. -/
def twosComplementBytes (v : Int) (N : Nat) : List Nat :=
  toBytesLE ((v % ((2 : Int) ^ (8 * N))).toNat) N

/-- Fixture: INT schema of width 1, no flags. -/
def int1W : cyaml_schema_type := .mk CYAML_INT false 1 [] none 0 0

/-- Fixture: sequence of plain INT8 elements (no pointer flag on the element
schema), count field at offset 8, 4 bytes wide. -/
def seqInt8W : cyaml_schema_type :=
  .mk CYAML_SEQUENCE true 8 [] (some (cyaml_schema_type.mk CYAML_INT false 8 [] none 0 0)) 8 4

/-- Fixture: the INT8 element schema of `seqInt8W`. -/
def elemInt8W : cyaml_schema_type := .mk CYAML_INT false 8 [] none 0 0

/-- Fixture: a fresh sequence frame over `seqInt8W` (no element admitted yet)
above a 16-byte parent block. -/
def ctxSeqFreshW : cyaml_ctx :=
  { stack := [{ state := CYAML_STATE_IN_SEQUENCE, schema := seqInt8W,
                mappingSchema := [], mappingState := CYAML_MAPPING_STATE_KEY,
                schema_idx := 0, seqData := none, count_data := ⟨0, 8⟩,
                count := 0, count_size := 4, data := ⟨0, 0⟩ }],
    stack_max := 16, heap := [zeros 16], allocOk := [], events := [] }

/-- Fixture: the `ctxSeqFreshW` frame after one admitted element (count 1,
element block 1). -/
def seqFrameAfterW : cyaml_state :=
  { state := CYAML_STATE_IN_SEQUENCE, schema := seqInt8W,
    mappingSchema := [], mappingState := CYAML_MAPPING_STATE_KEY,
    schema_idx := 0, seqData := some 1, count_data := ⟨0, 8⟩,
    count := 1, count_size := 4, data := ⟨0, 0⟩ }

/-- Fixture: the `ctxSeqFreshW` frame as pushed (count 0, no element block). -/
def seqFrameFreshW : cyaml_state :=
  { state := CYAML_STATE_IN_SEQUENCE, schema := seqInt8W,
    mappingSchema := [], mappingState := CYAML_MAPPING_STATE_KEY,
    schema_idx := 0, seqData := none, count_data := ⟨0, 8⟩,
    count := 0, count_size := 4, data := ⟨0, 0⟩ }

/-- Success condition of `cyaml__read_int` for a given width, phrased with
the source's own bound computation. -/
def readIntOkFor (sz : Nat) (s : String) : Prop :=
  (strtoll s).consumed = true ∧ (strtoll s).erange = false ∧
  -((((2 ^ 64 - 1) >>> ((8 - sz) * 8)) / 2 : Nat) : Int) - 1 ≤ (strtoll s).val ∧
  (strtoll s).val ≤ ((((2 ^ 64 - 1) >>> ((8 - sz) * 8)) / 2 : Nat) : Int)

instance (sz : Nat) (s : String) : Decidable (readIntOkFor sz s) := by
  unfold readIntOkFor
  infer_instance

/-- Static schema shape for the C4 sequence-frame invariant: a pointer-owned
sequence of flag-free INT elements whose width equals the sequence's element
stride. -/
def C4Schema (S E : cyaml_schema_type) : Prop :=
  (S.type = CYAML_SEQUENCE ∨ S.type = CYAML_SEQUENCE_FIXED) ∧
  S.flagPointer = true ∧ S.seqSchema = some E ∧
  E.type = CYAML_INT ∧ E.flagPointer = false ∧ E.data_size = S.data_size ∧
  0 < S.data_size

/-- The parent's count field and pointer slot do not overlap. -/
def C4Disjoint (S : cyaml_schema_type) (cd pd : Ptr) : Prop :=
  cd.block ≠ pd.block ∨ cd.off + S.count_size ≤ pd.off ∨ pd.off + 8 ≤ cd.off

/-- Invariant of a sequence frame after `k` admitted entries: the frame's
count is `k`, its element block (once it exists) holds exactly
`element_size * k` bytes in a block distinct from the parent's, the parent's
count field and pointer slot are in bounds, the count field reads back `k`
(non-FIXED, `k ≥ 1`), and for SEQUENCE_FIXED the count field still reads as
in the reference heap `hp0`. -/
def C4Inv (S : cyaml_schema_type) (cd pd : Ptr) (rest : List cyaml_state)
    (hp0 : Heap) (k : Nat) (ctx : cyaml_ctx) : Prop :=
  ctx.allocOk = [] ∧
  (∃ fr, ctx.stack = fr :: rest ∧
    fr.state = CYAML_STATE_IN_SEQUENCE ∧ fr.schema = S ∧ fr.count = k ∧
    fr.count_data = cd ∧ fr.count_size = S.count_size ∧ fr.data = pd ∧
    (match fr.seqData with
     | none => k = 0
     | some b => b ≠ cd.block ∧ b ≠ pd.block ∧
         ∃ blk, ctx.heap.get? b = some blk ∧ blk.length = S.data_size * k)) ∧
  (∃ cblk, ctx.heap.get? cd.block = some cblk ∧ cd.off + S.count_size ≤ cblk.length) ∧
  (∃ pblk, ctx.heap.get? pd.block = some pblk ∧ pd.off + 8 ≤ pblk.length) ∧
  (S.type ≠ CYAML_SEQUENCE_FIXED → 1 ≤ k →
     readBytesAt ctx.heap cd S.count_size = some (toBytesLE k S.count_size)) ∧
  (S.type = CYAML_SEQUENCE_FIXED →
     readBytesAt ctx.heap cd S.count_size = readBytesAt hp0 cd S.count_size)

/-- Fixture: a fresh sequence frame over `seqPtrElemW` (whose element schema
carries the owning-pointer flag), parent block of 16 bytes. -/
def ctxSeqPtrFreshW : cyaml_ctx :=
  { stack := [{ state := CYAML_STATE_IN_SEQUENCE, schema := seqPtrElemW,
                mappingSchema := [], mappingState := CYAML_MAPPING_STATE_KEY,
                schema_idx := 0, seqData := none, count_data := ⟨0, 8⟩,
                count := 0, count_size := 4, data := ⟨0, 0⟩ }],
    stack_max := 16, heap := [zeros 16], allocOk := [], events := [] }

/-- `updTop` leaves the producer stream alone. -/
theorem updTop_events (ctx : cyaml_ctx) (f : cyaml_state → cyaml_state) :
    (updTop ctx f).events = ctx.events := by
  unfold updTop; cases ctx.stack <;> rfl

/-- `cyaml__stack_ensure` leaves the producer stream alone. -/
theorem stack_ensure_events (ctx : cyaml_ctx) :
    (cyaml__stack_ensure ctx).2.events = ctx.events := by
  unfold cyaml__stack_ensure
  repeat' (first | rfl | split)

/-- `cyaml__stack_push` leaves the producer stream alone. -/
theorem stack_push_events (ctx : cyaml_ctx) (st : cyaml_state_e)
    (schema : cyaml_schema_type) (data : Ptr) :
    (cyaml__stack_push ctx st schema data).2.events = ctx.events := by
  unfold cyaml__stack_push
  rcases he : cyaml__stack_ensure ctx with ⟨e, ctx2⟩
  have h2 : ctx2.events = ctx.events := by
    have h3 := stack_ensure_events ctx
    rw [he] at h3
    exact h3
  simp only [he]
  repeat' (first | exact h2 | rfl | split)

/-- `cyaml__stack_pop` leaves the producer stream alone. -/
theorem stack_pop_events (ctx : cyaml_ctx) :
    (cyaml__stack_pop ctx).2.events = ctx.events := by
  unfold cyaml__stack_pop; cases ctx.stack <;> rfl

/-- The placement engine leaves the producer stream alone. -/
theorem data_handle_pointer_events (ctx : cyaml_ctx) (schema : cyaml_schema_type)
    (event : yaml_event) (p : Ptr) :
    (cyaml__data_handle_pointer ctx schema event p).2.1.events = ctx.events := by
  unfold cyaml__data_handle_pointer updTop cyaml_data_write
  repeat' (first | rfl | split | dsimp only)

/-- The value handler leaves the producer stream alone (it never pulls an
event; its caller already holds one). -/
theorem read_value_events (ctx : cyaml_ctx) (schema : cyaml_schema_type)
    (data : Ptr) (event : yaml_event) :
    (cyaml__read_value ctx schema data event).2.events = ctx.events := by
  unfold cyaml__read_value
  rcases hp : cyaml__data_handle_pointer ctx schema event data with ⟨e0, ctx2, d2⟩
  have h2 : ctx2.events = ctx.events := by
    have h3 := data_handle_pointer_events ctx schema event data
    rw [hp] at h3
    exact h3
  simp only [hp]
  repeat' (first | exact h2 | rfl | (rw [stack_push_events]; try exact h2) | split | dsimp only)

/-- The sequence-entry handler leaves the producer stream alone. -/
theorem new_sequence_entry_events (ctx : cyaml_ctx) (event : yaml_event) :
    (cyaml__new_sequence_entry ctx event).2.events = ctx.events := by
  unfold cyaml__new_sequence_entry
  rcases hs : ctx.stack.head? with _ | state0
  · simp only [hs]
  · simp only [hs]
    rcases hp : cyaml__data_handle_pointer ctx state0.schema event state0.data with ⟨e0, ctx2, vd⟩
    have h2 : ctx2.events = ctx.events := by
      have h3 := data_handle_pointer_events ctx state0.schema event state0.data
      rw [hp] at h3
      exact h3
    simp only [hp]
    repeat' (first | exact h2 | rfl | (rw [read_value_events]; try exact h2) | split | dsimp only)

/-- A successful pump consumed exactly one producer event. -/
theorem get_next_event_ok_consumes (ctx : cyaml_ctx) (mask : List yaml_event_type) :
    (cyaml_get_next_event ctx mask).1 = CYAML_OK →
    (cyaml_get_next_event ctx mask).2.2.events.length < ctx.events.length := by
  unfold cyaml_get_next_event
  cases hev : ctx.events with
  | nil => simp
  | cons e rest =>
      simp only [hev]
      split
      · simp
      · split <;> simp

/-- A pump result of `CYAML_OK` carries an event. -/
theorem get_next_event_ok_some (ctx : cyaml_ctx) (mask : List yaml_event_type) :
    (cyaml_get_next_event ctx mask).1 = CYAML_OK →
    (cyaml_get_next_event ctx mask).2.1.isSome := by
  unfold cyaml_get_next_event
  cases hev : ctx.events with
  | nil => simp
  | cons e rest =>
      simp only [hev]
      split
      · simp
      · split <;> simp

/-- `cyaml__read_start` consumes a producer event whenever it returns
`CYAML_OK`. -/
theorem read_start_consumes (ctx : cyaml_ctx) :
    (cyaml__read_start ctx).1 = .ret CYAML_OK →
    (cyaml__read_start ctx).2.events.length < ctx.events.length := by
  unfold cyaml__read_start
  rcases hp : cyaml_get_next_event ctx [yaml_event_type.streamStart] with ⟨e, ev?, ctx2⟩
  have hlt : e = CYAML_OK → ctx2.events.length < ctx.events.length := by
    intro he
    have h3 := get_next_event_ok_consumes ctx [yaml_event_type.streamStart]
    rw [hp] at h3
    exact h3 he
  simp only [hp]
  split
  · intro hok
    rename_i hne
    exact absurd (by injection hok) hne
  · rename_i hne
    rw [not_ne_iff] at hne
    have hl := hlt hne
    rcases ev? with _ | ev
    · intro hok
      simp at hok
    · dsimp only
      split
      · split
        · intro _
          rw [stack_push_events]
          exact hl
        · intro hok
          simp at hok
      · intro hok
        simp at hok

/-- `cyaml__read_stream` consumes a producer event whenever it returns
`CYAML_OK`. -/
theorem read_stream_consumes (ctx : cyaml_ctx) :
    (cyaml__read_stream ctx).1 = .ret CYAML_OK →
    (cyaml__read_stream ctx).2.events.length < ctx.events.length := by
  unfold cyaml__read_stream
  rcases hp : cyaml_get_next_event ctx [yaml_event_type.docStart, yaml_event_type.streamEnd]
    with ⟨e, ev?, ctx2⟩
  have hlt : e = CYAML_OK → ctx2.events.length < ctx.events.length := by
    intro he
    have h3 := get_next_event_ok_consumes ctx
      [yaml_event_type.docStart, yaml_event_type.streamEnd]
    rw [hp] at h3
    exact h3 he
  simp only [hp]
  split
  · intro hok
    rename_i hne
    exact absurd (by injection hok) hne
  · rename_i hne
    rw [not_ne_iff] at hne
    have hl := hlt hne
    rcases ev? with _ | ev
    · intro hok
      simp at hok
    · dsimp only
      split
      · split
        · intro _
          rw [stack_push_events]
          exact hl
        · intro hok
          simp at hok
      · rcases hpo : cyaml__stack_pop ctx2 with ⟨e2, ctx3⟩
        have h3 : ctx3.events = ctx2.events := by
          have h4 := stack_pop_events ctx2
          rw [hpo] at h4
          exact h4
        simp only [hpo]
        split
        · intro _
          rw [h3]
          exact hl
        · intro _
          rw [h3]
          exact hl
      · intro hok
        simp at hok

/-- `cyaml__read_doc` consumes a producer event whenever it returns
`CYAML_OK`. -/
theorem read_doc_consumes (ctx : cyaml_ctx) :
    (cyaml__read_doc ctx).1 = .ret CYAML_OK →
    (cyaml__read_doc ctx).2.events.length < ctx.events.length := by
  unfold cyaml__read_doc
  rcases hp : cyaml_get_next_event ctx [yaml_event_type.mappingStart, yaml_event_type.docEnd]
    with ⟨e, ev?, ctx2⟩
  have hlt : e = CYAML_OK → ctx2.events.length < ctx.events.length := by
    intro he
    have h3 := get_next_event_ok_consumes ctx
      [yaml_event_type.mappingStart, yaml_event_type.docEnd]
    rw [hp] at h3
    exact h3 he
  simp only [hp]
  split
  · intro hok
    rename_i hne
    exact absurd (by injection hok) hne
  · rename_i hne
    rw [not_ne_iff] at hne
    have hl := hlt hne
    rcases ev? with _ | ev
    · intro hok
      simp at hok
    · dsimp only
      split
      · split
        · intro _
          rw [stack_push_events]
          exact hl
        · intro hok
          simp at hok
      · rcases hpo : cyaml__stack_pop ctx2 with ⟨e2, ctx3⟩
        have h3 : ctx3.events = ctx2.events := by
          have h4 := stack_pop_events ctx2
          rw [hpo] at h4
          exact h4
        simp only [hpo]
        split
        · intro _
          rw [h3]
          exact hl
        · intro _
          rw [h3]
          exact hl
      · intro hok
        simp at hok

/-- `cyaml__read_mapping_key` consumes a producer event whenever it returns
`CYAML_OK`. -/
theorem read_mapping_key_consumes (ctx : cyaml_ctx) :
    (cyaml__read_mapping_key ctx).1 = .ret CYAML_OK →
    (cyaml__read_mapping_key ctx).2.events.length < ctx.events.length := by
  unfold cyaml__read_mapping_key
  rcases hp : cyaml_get_next_event ctx [yaml_event_type.scalar, yaml_event_type.mappingEnd]
    with ⟨e, ev?, ctx2⟩
  have hlt : e = CYAML_OK → ctx2.events.length < ctx.events.length := by
    intro he
    have h3 := get_next_event_ok_consumes ctx
      [yaml_event_type.scalar, yaml_event_type.mappingEnd]
    rw [hp] at h3
    exact h3 he
  simp only [hp]
  split
  · intro hok
    rename_i hne
    exact absurd (by injection hok) hne
  · rename_i hne
    rw [not_ne_iff] at hne
    have hl := hlt hne
    rcases ev? with _ | ev
    · intro hok
      simp at hok
    · dsimp only
      split
      · split
        · intro hok
          simp at hok
        · split
          · intro hok
            simp at hok
          · intro _
            rw [updTop_events, updTop_events]
            exact hl
      · rcases hpo : cyaml__stack_pop ctx2 with ⟨e2, ctx3⟩
        have h3 : ctx3.events = ctx2.events := by
          have h4 := stack_pop_events ctx2
          rw [hpo] at h4
          exact h4
        simp only [hpo]
        split
        · intro _
          rw [h3]
          exact hl
        · intro _
          rw [h3]
          exact hl
      · intro hok
        simp at hok

/-- `cyaml__read_mapping_value` consumes a producer event whenever it returns
`CYAML_OK`. -/
theorem read_mapping_value_consumes (ctx : cyaml_ctx) :
    (cyaml__read_mapping_value ctx).1 = .ret CYAML_OK →
    (cyaml__read_mapping_value ctx).2.events.length < ctx.events.length := by
  unfold cyaml__read_mapping_value
  rcases hs : ctx.stack.head? with _ | state0
  · intro hok
    simp at hok
  · simp only [hs]
    rcases hg : state0.mappingSchema.get? state0.schema_idx with _ | entry
    · intro hok
      simp at hok
    · dsimp only
      rcases hp : cyaml_get_next_event ctx [yaml_event_type.scalar, yaml_event_type.seqStart,
        yaml_event_type.mappingStart] with ⟨e, ev?, ctx2⟩
      have hlt : e = CYAML_OK → ctx2.events.length < ctx.events.length := by
        intro he
        have h3 := get_next_event_ok_consumes ctx [yaml_event_type.scalar,
          yaml_event_type.seqStart, yaml_event_type.mappingStart]
        rw [hp] at h3
        exact h3 he
      simp only [hp]
      split
      · intro hok
        rename_i hne
        exact absurd (by injection hok) hne
      · rename_i hne
        rw [not_ne_iff] at hne
        have hl := hlt hne
        rcases ev? with _ | ev
        · intro hok
          simp at hok
        · dsimp only
          intro _
          rw [read_value_events, updTop_events]
          exact hl

/-- `cyaml__read_mapping` consumes a producer event whenever it returns
`CYAML_OK`. -/
theorem read_mapping_consumes (ctx : cyaml_ctx) :
    (cyaml__read_mapping ctx).1 = .ret CYAML_OK →
    (cyaml__read_mapping ctx).2.events.length < ctx.events.length := by
  unfold cyaml__read_mapping
  rcases hs : ctx.stack.head? with _ | top
  · intro hok
    simp at hok
  · simp only [hs]
    cases top.mappingState
    · exact read_mapping_key_consumes ctx
    · exact read_mapping_value_consumes ctx

/-- `cyaml__read_sequence` consumes a producer event whenever it returns
`CYAML_OK`. -/
theorem read_sequence_consumes (ctx : cyaml_ctx) :
    (cyaml__read_sequence ctx).1 = .ret CYAML_OK →
    (cyaml__read_sequence ctx).2.events.length < ctx.events.length := by
  unfold cyaml__read_sequence
  rcases hp : cyaml_get_next_event ctx [yaml_event_type.mappingStart, yaml_event_type.seqStart,
    yaml_event_type.seqEnd, yaml_event_type.scalar] with ⟨e, ev?, ctx2⟩
  have hlt : e = CYAML_OK → ctx2.events.length < ctx.events.length := by
    intro he
    have h3 := get_next_event_ok_consumes ctx [yaml_event_type.mappingStart,
      yaml_event_type.seqStart, yaml_event_type.seqEnd, yaml_event_type.scalar]
    rw [hp] at h3
    exact h3 he
  simp only [hp]
  split
  · intro hok
    rename_i hne
    exact absurd (by injection hok) hne
  · rename_i hne
    rw [not_ne_iff] at hne
    have hl := hlt hne
    rcases ev? with _ | ev
    · intro hok
      simp at hok
    · dsimp only
      split
      · intro _
        rw [new_sequence_entry_events]
        exact hl
      · intro _
        rw [new_sequence_entry_events]
        exact hl
      · intro _
        rw [new_sequence_entry_events]
        exact hl
      · rcases hpo : cyaml__stack_pop ctx2 with ⟨e2, ctx3⟩
        have h3 : ctx3.events = ctx2.events := by
          have h4 := stack_pop_events ctx2
          rw [hpo] at h4
          exact h4
        simp only [hpo]
        split
        · intro _
          rw [h3]
          exact hl
        · intro _
          rw [h3]
          exact hl
      · intro hok
        simp at hok

/-- One loop iteration consumes a producer event whenever it returns
`CYAML_OK`: the ground fact behind the drive loop's termination. -/
theorem load_step_consumes (ctx : cyaml_ctx) :
    (cyaml__load_step ctx).1 = .ret CYAML_OK →
    (cyaml__load_step ctx).2.events.length < ctx.events.length := by
  unfold cyaml__load_step
  rcases hs : ctx.stack.head? with _ | top
  · intro hok
    simp at hok
  · simp only [hs]
    cases top.state
    · exact read_start_consumes ctx
    · exact read_stream_consumes ctx
    · exact read_doc_consumes ctx
    · exact read_mapping_consumes ctx
    · exact read_sequence_consumes ctx

/-- Any bound exceeding the number of pending producer events gives the drive
loop the same result: the bound is never exhausted. -/
theorem load_loop_fuel_irrelevant :
    ∀ n m ctx, ctx.events.length < n → ctx.events.length < m →
      cyaml__load_loop n ctx = cyaml__load_loop m ctx := by
  intro n
  induction n with
  | zero => intro m ctx hn; omega
  | succ n ih =>
      intro m ctx hn hm
      cases m with
      | zero => omega
      | succ m =>
          rcases hstep : cyaml__load_step ctx with ⟨rv, ctx2⟩
          have hcons := load_step_consumes ctx
          rw [hstep] at hcons
          simp only [cyaml__load_loop, hstep]
          cases rv with
          | assertFail => rfl
          | ret e =>
              cases e
              case CYAML_OK =>
                have hlt : ctx2.events.length < ctx.events.length := hcons rfl
                cases hh : ctx2.stack.head? with
                | none => simp only [hh]
                | some top =>
                    simp only [hh]
                    by_cases hst : top.state = CYAML_STATE_START
                    · simp [hst]
                    · rw [if_neg hst, if_neg hst]
                      exact ih m ctx2 (by omega) (by omega)
              all_goals rfl

/-- Claim C7: the event pump calls the producer once; a producer failure
yields `CYAML_ERR_LIBYAML_PARSER`, an alias event yields `CYAML_ERR_ALIAS`,
an event kind outside the mask yields `CYAML_ERR_UNEXPECTED_EVENT`, and
otherwise the pump returns `CYAML_OK` with the event. -/
theorem C7_event_pump (ctx : cyaml_ctx) (mask : List yaml_event_type) :
    (ctx.events = [] →
      cyaml_get_next_event ctx mask = (CYAML_ERR_LIBYAML_PARSE, none, ctx)) ∧
    (∀ e rest, ctx.events = e :: rest →
      (e.type = yaml_event_type.alias →
        cyaml_get_next_event ctx mask =
          (CYAML_ERR_ALIAS, none, { ctx with events := rest })) ∧
      (e.type ≠ yaml_event_type.alias → mask.contains e.type = false →
        cyaml_get_next_event ctx mask =
          (CYAML_ERR_UNEXPECTED_EVENT, none, { ctx with events := rest })) ∧
      (e.type ≠ yaml_event_type.alias → mask.contains e.type = true →
        cyaml_get_next_event ctx mask =
          (CYAML_OK, some e, { ctx with events := rest }))) := by
  constructor
  · intro h
    unfold cyaml_get_next_event
    rw [h]
  · intro e rest h
    unfold cyaml_get_next_event
    rw [h]
    refine ⟨?_, ?_, ?_⟩
    · intro ha
      simp [ha]
    · intro ha hm
      simp at hm
      simp [ha, hm]
    · intro ha hm
      simp at hm
      simp [ha, hm]

/-- Witness for C7 at a concrete producer stream and mask. -/
theorem C7_event_pump_witness :
    cyaml_get_next_event pumpCtxW [yaml_event_type.scalar] =
      (CYAML_OK, some ⟨yaml_event_type.scalar, "x"⟩, { pumpCtxW with events := [] }) :=
  ((C7_event_pump pumpCtxW [yaml_event_type.scalar]).2
    ⟨yaml_event_type.scalar, "x"⟩ [] rfl).2.2 (by decide) (by decide)

/-- Claim C8: entry-point parameter validation — each defect alone produces
its dedicated code, for every producer stream (so before any parsing): a NULL
config gives `BAD_PARAM_NULL_CONFIG`; a NULL schema gives
`BAD_PARAM_NULL_SCHEMA`; a NULL output pointer (with a well-formed mapping
schema) gives `BAD_PARAM_NULL_DATA`; a non-MAPPING top-level schema gives
`BAD_TOP_LEVEL_TYPE`.  The code checks the top-level kind before the output
pointer, so when both are bad `BAD_TOP_LEVEL_TYPE` wins. -/
theorem C8_entry_param_checks :
    (∀ events (schema : Option cyaml_schema_type) (d i : Bool) a,
        cyaml_load_data events none schema d i a =
          (.ret CYAML_ERR_BAD_PARAM_NULL_CONFIG, none)) ∧
    (∀ events (d i : Bool) a,
        cyaml_load_data events (some ()) none d i a =
          (.ret CYAML_ERR_BAD_PARAM_NULL_SCHEMA, none)) ∧
    (∀ events (s : cyaml_schema_type) (i : Bool) a, s.type = CYAML_MAPPING →
        cyaml_load_data events (some ()) (some s) false i a =
          (.ret CYAML_ERR_BAD_PARAM_NULL_DATA, none)) ∧
    (∀ events (s : cyaml_schema_type) (d i : Bool) a, s.type ≠ CYAML_MAPPING →
        cyaml_load_data events (some ()) (some s) d i a =
          (.ret CYAML_ERR_BAD_TOP_LEVEL_TYPE, none)) := by
  refine ⟨?_, ?_, ?_, ?_⟩
  · intro events schema d i a
    rfl
  · intro events d i a
    rfl
  · intro events s i a h
    simp [cyaml_load_data, cyaml__validate_load_params, h]
  · intro events s d i a h
    simp [cyaml_load_data, cyaml__validate_load_params, h]

/-- Witness for C8 at a concrete non-mapping schema. -/
theorem C8_entry_param_checks_witness :
    cyaml_load_data [] (some ()) (some int4W) true true [] =
      (.ret CYAML_ERR_BAD_TOP_LEVEL_TYPE, none) :=
  C8_entry_param_checks.2.2.2 [] int4W true true [] (by decide)

/-- Claim C1 evaluated at its failing input (the code bug): with the next
allocation failing, the placement engine invoked from `cyaml__read_value` for
a pointer-flagged INT mapping value returns `CYAML_ERR_OOM`, yet
`cyaml__read_value` discards that result (source line 529), decodes the
scalar into the untouched target — the pointer slot itself — and returns
`CYAML_OK`. -/
theorem C1_oom_ignored :
    (cyaml__data_handle_pointer ctxOomW intPtr8W ⟨yaml_event_type.scalar, "1"⟩ ⟨0, 0⟩).1 =
      CYAML_ERR_OOM ∧
    (cyaml__read_value ctxOomW intPtr8W ⟨0, 0⟩ ⟨yaml_event_type.scalar, "1"⟩).1 =
      .ret CYAML_OK ∧
    readBytesAt (cyaml__read_value ctxOomW intPtr8W ⟨0, 0⟩
        ⟨yaml_event_type.scalar, "1"⟩).2.heap ⟨0, 0⟩ 8 =
      some [1, 0, 0, 0, 0, 0, 0, 0] := by
  refine ⟨rfl, rfl, by decide⟩

/-- Claim C6 as stated is false: a FLAGS value is consumed with `CYAML_OK`
(the `\todo` branch), not rejected with `CYAML_ERR_BAD_TYPE_IN_SCHEMA`. -/
theorem C6_counterexample :
    (cyaml__read_value ctxMapW flagsSchemaW ⟨0, 0⟩ ⟨yaml_event_type.scalar, "x"⟩).1 =
      .ret CYAML_OK ∧
    RVal.ret CYAML_OK ≠ RVal.ret CYAML_ERR_BAD_TYPE_IN_SCHEMA := by
  refine ⟨rfl, by decide⟩

/-- Claim C6 amended: for FLAGS and IGNORE schema kinds the value handler
returns `CYAML_OK`, consuming the value without decoding it (the placement
engine still runs first); `CYAML_ERR_BAD_TYPE_IN_SCHEMA` is produced only by
the `default:` arm, unreachable for the declared node kinds. -/
theorem C6_amended (ctx : cyaml_ctx) (schema : cyaml_schema_type) (data : Ptr)
    (event : yaml_event)
    (h : schema.type = CYAML_FLAGS ∨ schema.type = CYAML_IGNORE) :
    (cyaml__read_value ctx schema data event).1 = .ret CYAML_OK := by
  rcases h with h | h <;>
  · unfold cyaml__read_value
    rcases hp : cyaml__data_handle_pointer ctx schema event data with ⟨e0, c2, d2⟩
    simp [h, hp]

/-- Witness for C6 (amended) at a concrete IGNORE schema and mapping event. -/
theorem C6_amended_witness :
    (cyaml__read_value ctxMapW ignoreSchemaW ⟨0, 0⟩
      ⟨yaml_event_type.mappingStart, ""⟩).1 = .ret CYAML_OK :=
  C6_amended ctxMapW ignoreSchemaW ⟨0, 0⟩ ⟨yaml_event_type.mappingStart, ""⟩ (Or.inr rfl)

/-- Closed form of the capacity sequence: arithmetic growth by 16, mod 2^32. -/
theorem stackCapSeq_closed (n : Nat) : stackCapSeq n = (16 * n) % 2 ^ 32 := by
  induction n with
  | zero => rfl
  | succ n ih =>
      unfold stackCapSeq stackEnsureNewMax
      rw [ih]
      omega

/-- Claim C9 as stated is false: the stack does not grow geometrically.  No
ratio `q > 1` works — at the 2^28-th growth the uint32 capacity wraps to 0
while the previous capacity is 2^32 - 16 — and even the canonical doubling
ratio fails at the very first steps (the third capacity, 48, is less than
twice the second, 32). -/
theorem C9_counterexample :
    ¬ stackGrowthGeometric ∧
    (stackCapSeq 3 : ℚ) < 2 * (stackCapSeq 2 : ℚ) := by
  constructor
  · rintro ⟨q, hq, hall⟩
    have h1 := hall (2 ^ 28 - 1) (by norm_num)
    rw [stackCapSeq_closed, stackCapSeq_closed] at h1
    norm_num at h1
    have hpos : (0 : ℚ) < q * 4294967280 := by
      have : (0 : ℚ) < q := lt_trans one_pos hq
      positivity
    linarith
  · rw [stackCapSeq_closed, stackCapSeq_closed]
    norm_num

/-- Claim C9 amended: whenever a push finds the stack full (`stack_idx`
reached `stack_max`) and the reallocation succeeds, the new capacity is
exactly the old capacity plus 16 — arithmetic growth in steps of 16 frames
(uint32 arithmetic; the hypothesis rules the unreachable wrap out). -/
theorem C9_amended (ctx : cyaml_ctx)
    (hfull : ctx.stack_max ≤ ctx.stack.length)
    (halloc : (nextAllocOk ctx.allocOk).1 = true)
    (hnw : ctx.stack_max + 16 < 2 ^ 32) :
    (cyaml__stack_ensure ctx).1 = CYAML_OK ∧
    (cyaml__stack_ensure ctx).2.stack_max = ctx.stack_max + 16 ∧
    ctx.stack_max + 16 ≤ (cyaml__stack_ensure ctx).2.stack_max := by
  unfold cyaml__stack_ensure stackEnsureNewMax
  have hc : ¬ (ctx.stack.length < ctx.stack_max) := Nat.not_lt.mpr hfull
  rcases hna : nextAllocOk ctx.allocOk with ⟨ok, rest⟩
  rw [hna] at halloc
  simp only at halloc
  simp [hc, halloc]
  omega

/-- Witness for C9 (amended) at the engine's initial empty stack. -/
theorem C9_amended_witness :
    (cyaml__stack_ensure emptyCtxW).1 = CYAML_OK ∧
    (cyaml__stack_ensure emptyCtxW).2.stack_max = emptyCtxW.stack_max + 16 ∧
    emptyCtxW.stack_max + 16 ≤ (cyaml__stack_ensure emptyCtxW).2.stack_max :=
  C9_amended emptyCtxW (by decide) (by decide) (by decide)

/-- Claim C2 as stated is false in its "except inside a sequence" clause: for
a pointer-flagged INT element schema, `cyaml__read_value` runs the placement
engine even inside a sequence frame — the element allocation (block 1 of
`ctxSeqW`) is resized from 8 to 16 bytes by the handler itself. -/
theorem C2_counterexample :
    cyaml_in_sequence ctxSeqW = true ∧
    ((cyaml__read_value ctxSeqW intPtr8W ⟨1, 0⟩
        ⟨yaml_event_type.scalar, "5"⟩).2.heap.get? 1).map List.length = some 16 ∧
    (ctxSeqW.heap.get? 1).map List.length = some 8 := by
  refine ⟨rfl, by decide, by decide⟩

/-- Claim C2 amended: for every scalar schema kind (INT, UINT, BOOL, ENUM,
STRING) the value handler first runs the placement engine unconditionally —
also inside a sequence, where a pointer-flagged element schema grows the
element allocation again — and its result is discarded; then, if the event is
not SCALAR the handler returns `CYAML_ERR_INVALID_VALUE`, and if it is SCALAR
the scalar dispatch runs: for INT the integer decoder produces the value's
result, while for the other four kinds no decoder is registered and the
dispatch's assertion fails. -/
theorem C2_amended (ctx : cyaml_ctx) (schema : cyaml_schema_type) (data : Ptr)
    (ev : yaml_event)
    (hk : schema.type = CYAML_INT ∨ schema.type = CYAML_UINT ∨
          schema.type = CYAML_BOOL ∨ schema.type = CYAML_ENUM ∨
          schema.type = CYAML_STRING) :
    (ev.type ≠ yaml_event_type.scalar →
       cyaml__read_value ctx schema data ev =
         (.ret CYAML_ERR_INVALID_VALUE,
          (cyaml__data_handle_pointer ctx schema ev data).2.1)) ∧
    (ev.type = yaml_event_type.scalar →
       cyaml__read_value ctx schema data ev =
         ((cyaml__read_scalar_value schema
             (cyaml__data_handle_pointer ctx schema ev data).2.2 ev
             (cyaml__data_handle_pointer ctx schema ev data).2.1.heap).1,
          { (cyaml__data_handle_pointer ctx schema ev data).2.1 with
            heap := (cyaml__read_scalar_value schema
              (cyaml__data_handle_pointer ctx schema ev data).2.2 ev
              (cyaml__data_handle_pointer ctx schema ev data).2.1.heap).2 })) ∧
    (ev.type = yaml_event_type.scalar → schema.type = CYAML_INT →
       (cyaml__read_value ctx schema data ev).1 =
         .ret (cyaml__read_int schema ev.value
                 (cyaml__data_handle_pointer ctx schema ev data).2.2
                 (cyaml__data_handle_pointer ctx schema ev data).2.1.heap).1) ∧
    (ev.type = yaml_event_type.scalar → schema.type ≠ CYAML_INT →
       (cyaml__read_value ctx schema data ev).1 = .assertFail) := by
  rcases hp : cyaml__data_handle_pointer ctx schema ev data with ⟨e0, c2, d2⟩
  rcases hk with h | h | h | h | h <;>
  · refine ⟨?_, ?_, ?_, ?_⟩
    · intro hev
      unfold cyaml__read_value
      simp [h, hp, hev]
    · intro hev
      unfold cyaml__read_value
      rcases hr : cyaml__read_scalar_value schema d2 ev c2.heap with ⟨r, h2⟩
      simp [h, hp, hev, hr]
    · intro hev hint
      unfold cyaml__read_value cyaml__read_scalar_value
      rcases hri : cyaml__read_int schema ev.value d2 c2.heap with ⟨e1, h1⟩
      simp [h, hp, hev, hri]
      first
      | rfl
      | (exact absurd (h.symm.trans hint) (by decide))
      | skip
    · intro hev hint
      unfold cyaml__read_value cyaml__read_scalar_value
      first
      | (exact absurd h hint)
      | simp [h, hp, hev]

/-- Witness for C2 (amended) at a concrete INT mapping value. -/
theorem C2_amended_witness :
    (cyaml__read_value ctxMapW int4W ⟨0, 0⟩ ⟨yaml_event_type.scalar, "7"⟩).1 =
      .ret (cyaml__read_int int4W "7"
        (cyaml__data_handle_pointer ctxMapW int4W ⟨yaml_event_type.scalar, "7"⟩ ⟨0, 0⟩).2.2
        (cyaml__data_handle_pointer ctxMapW int4W ⟨yaml_event_type.scalar, "7"⟩ ⟨0, 0⟩).2.1.heap).1 :=
  (C2_amended ctxMapW int4W ⟨0, 0⟩ ⟨yaml_event_type.scalar, "7"⟩
    (Or.inl rfl)).2.2.1 rfl rfl

/-- Only the low-order `n` bytes of a value reach its byte serialisation. -/
theorem toBytesLE_mod (n : Nat) (a : Nat) :
    toBytesLE (a % 2 ^ (8 * n)) n = toBytesLE a n := by
  induction n generalizing a with
  | zero => rfl
  | succ n ih =>
      have h2 : (2 : Nat) ^ (8 * (n + 1)) = 256 * 2 ^ (8 * n) := by
        rw [Nat.mul_succ, pow_add]
        ring
      simp only [toBytesLE]
      rw [h2]
      congr 1
      · exact Nat.mod_mod_of_dvd a ⟨2 ^ (8 * n), rfl⟩
      · rw [Nat.mod_mul_right_div_self]
        exact ih (a / 256)

/-- `cyaml__read_int` restated with its bound computation spelled out
(definitional). -/
theorem read_int_spec (schema : cyaml_schema_type) (s : String) (p : Ptr) (h : Heap) :
    cyaml__read_int schema s p h =
      (if (strtoll s).consumed = false ∨ (strtoll s).erange = true ∨
          (strtoll s).val <
            -((((2 ^ 64 - 1) >>> ((8 - schema.data_size) * 8)) / 2 : Nat) : Int) - 1 ∨
          ((((2 ^ 64 - 1) >>> ((8 - schema.data_size) * 8)) / 2 : Nat) : Int) < (strtoll s).val
       then (CYAML_ERR_INVALID_VALUE, h)
       else cyaml_data_write (((strtoll s).val % (2 ^ 64 : Int)).toNat)
              schema.data_size p h) := rfl

/-- Claim C3: for INT schema widths N in {1,2,4,8}, the decoder rejects with
`CYAML_ERR_INVALID_VALUE` when no digits were consumed, when the conversion
reports out-of-range, or when the parsed value lies outside
`[-2^(8N-1), 2^(8N-1) - 1]`; for every parsed value inside that interval it
succeeds and stores the two's-complement low-order N bytes at the target
address. -/
theorem C3_read_int (schema : cyaml_schema_type) (s : String) (p : Ptr) (h : Heap)
    (hN : schema.data_size = 1 ∨ schema.data_size = 2 ∨ schema.data_size = 4 ∨
          schema.data_size = 8) :
    ((strtoll s).consumed = false ∨ (strtoll s).erange = true ∨
        (strtoll s).val < -((2 : Int) ^ (8 * schema.data_size - 1)) ∨
        ((2 : Int) ^ (8 * schema.data_size - 1) - 1) < (strtoll s).val →
      cyaml__read_int schema s p h = (CYAML_ERR_INVALID_VALUE, h)) ∧
    ((strtoll s).consumed = true → (strtoll s).erange = false →
      -((2 : Int) ^ (8 * schema.data_size - 1)) ≤ (strtoll s).val →
      (strtoll s).val ≤ (2 : Int) ^ (8 * schema.data_size - 1) - 1 →
      ∀ b, h.get? p.block = some b → p.off + schema.data_size ≤ b.length →
        cyaml__read_int schema s p h =
          (CYAML_OK, h.set p.block (listWriteAt b p.off
            (twosComplementBytes (strtoll s).val schema.data_size)))) := by
  rcases hN with h1 | h1 | h1 | h1 <;>
  · have hmx : ((((2 ^ 64 - 1) >>> ((8 - schema.data_size) * 8)) / 2 : Nat) : Int)
        = 2 ^ (8 * schema.data_size - 1) - 1 := by rw [h1]; decide
    constructor
    · intro hrej
      rw [read_int_spec, if_pos]
      rcases hrej with hr | hr | hr | hr
      · exact Or.inl hr
      · exact Or.inr (Or.inl hr)
      · refine Or.inr (Or.inr (Or.inl ?_))
        rw [hmx]
        linarith
      · refine Or.inr (Or.inr (Or.inr ?_))
        rw [hmx]
        linarith
    · intro hcons her hlo hhi b hb hbound
      have hbytes : toBytesLE (((strtoll s).val % (2 ^ 64 : Int)).toNat) schema.data_size
          = twosComplementBytes (strtoll s).val schema.data_size := by
        unfold twosComplementBytes
        rw [h1, ← toBytesLE_mod]
        all_goals
          congr 1
          first
          | omega
          | (norm_num; omega)
          | norm_num
      rw [read_int_spec, if_neg]
      · unfold cyaml_data_write
        simp only [hb, if_pos hbound]
        rw [hbytes]
      · rw [hmx]
        push_neg
        refine ⟨?_, ?_, ?_, ?_⟩
        · simp [hcons]
        · simp [her]
        · linarith
        · linarith

/-- Witness for C3 at width 1 and the lower bound value -128. -/
theorem C3_read_int_witness :
    cyaml__read_int int1W "-128" ⟨0, 0⟩ [[0]] =
      (CYAML_OK, [[0]].set 0 (listWriteAt [0] 0
        (twosComplementBytes (strtoll "-128").val 1))) :=
  (C3_read_int int1W "-128" ⟨0, 0⟩ [[0]] (Or.inl rfl)).2
    (by decide) (by decide) (by decide) (by decide) [0] rfl (by decide)

/-- Claim C5 as stated is false in one corner: when the root `calloc` itself
fails, `cyaml__load` returns `CYAML_ERR_OOM` directly (line 939) without
invoking the free routine — nothing was allocated, but the claim demands the
invocation on every non-OK return. -/
theorem C5_counterexample :
    (cyaml__load mapSchemaW [] [false]).res = .ret CYAML_ERR_OOM ∧
    (cyaml__load mapSchemaW [] [false]).freeCalled = false := by
  refine ⟨rfl, rfl⟩

/-- Claim C5 amended: for every load returning a non-OK result, the output
pointer is untouched, the evaluation stack ends empty, and the free routine
has been invoked on the partially built tree — except when the root
allocation itself failed (nothing was allocated, nothing is freed).  On every
successful return no frames remain, the root is handed out, and the free
routine was not invoked. -/
theorem C5_amended (schema : cyaml_schema_type) (events : List yaml_event)
    (allocOk : List Bool) :
    (∀ e, (cyaml__load schema events allocOk).res = .ret e → e ≠ CYAML_OK →
        (cyaml__load schema events allocOk).data_out = none ∧
        (cyaml__load schema events allocOk).stack = [] ∧
        ((cyaml__load schema events allocOk).freeCalled = true ↔
          (nextAllocOk allocOk).1 = true)) ∧
    ((cyaml__load schema events allocOk).res = .ret CYAML_OK →
        (cyaml__load schema events allocOk).stack = [] ∧
        (cyaml__load schema events allocOk).data_out = some ⟨0, 0⟩ ∧
        (cyaml__load schema events allocOk).freeCalled = false) := by
  unfold cyaml__load
  rcases hna : nextAllocOk allocOk with ⟨ok0, a1⟩
  simp only [hna]
  split
  · rename_i hok0
    constructor
    · intro e he hne
      refine ⟨rfl, rfl, ?_⟩
      simp [hok0]
    · intro hok
      simp at hok
  · rename_i hok0
    rw [Bool.not_eq_false] at hok0
    split
    · constructor
      · intro e he hne
        simp at he
      · intro hok
        simp at hok
    · rename_i e1 ctx1
      split
      · rename_i hne1
        constructor
        · intro e he hne
          refine ⟨rfl, rfl, ?_⟩
          simp [hok0]
        · intro hok
          exact absurd (RVal.ret.inj hok) hne1
      · split
        · constructor
          · intro e he hne
            simp at he
          · intro hok
            simp at hok
        · rename_i e2 ctx2
          split
          · rename_i hne2
            constructor
            · intro e he hne
              refine ⟨rfl, rfl, ?_⟩
              simp [hok0]
            · intro hok
              exact absurd (RVal.ret.inj hok) hne2
          · rename_i hee2
            split
            · rename_i hne3
              constructor
              · intro e he hne
                refine ⟨rfl, rfl, ?_⟩
                simp [hok0]
              · intro hok
                exact absurd (RVal.ret.inj hok) hne3
            · split
              · constructor
                · intro e he hne
                  simp at he
                · intro hok
                  simp at hok
              · constructor
                · intro e he hne
                  exact absurd (RVal.ret.inj he).symm hne
                · intro hok
                  exact ⟨rfl, rfl, rfl⟩

/-- Witness for C5 (amended): a load failing with `INVALID_KEY` (unknown key
`b`) leaves the output untouched, the stack empty, and has freed the partial
tree. -/
theorem C5_amended_witness :
    (cyaml__load mapSchemaW
        [⟨yaml_event_type.streamStart, ""⟩, ⟨yaml_event_type.docStart, ""⟩,
         ⟨yaml_event_type.mappingStart, ""⟩, ⟨yaml_event_type.scalar, "b"⟩] []).data_out
      = none ∧
    (cyaml__load mapSchemaW
        [⟨yaml_event_type.streamStart, ""⟩, ⟨yaml_event_type.docStart, ""⟩,
         ⟨yaml_event_type.mappingStart, ""⟩, ⟨yaml_event_type.scalar, "b"⟩] []).stack
      = [] ∧
    ((cyaml__load mapSchemaW
        [⟨yaml_event_type.streamStart, ""⟩, ⟨yaml_event_type.docStart, ""⟩,
         ⟨yaml_event_type.mappingStart, ""⟩, ⟨yaml_event_type.scalar, "b"⟩] []).freeCalled
      = true ↔ (nextAllocOk []).1 = true) :=
  (C5_amended mapSchemaW
    [⟨yaml_event_type.streamStart, ""⟩, ⟨yaml_event_type.docStart, ""⟩,
     ⟨yaml_event_type.mappingStart, ""⟩, ⟨yaml_event_type.scalar, "b"⟩] []).1
    CYAML_ERR_INVALID_KEY (by decide) (by decide)

/-- A buffer store does not change the buffer's length. -/
theorem listWriteAt_length :
    ∀ (vs b : List Nat) (off : Nat), (listWriteAt b off vs).length = b.length := by
  intro vs
  induction vs with
  | nil => intro b off; rfl
  | cons v vs ih =>
      intro b off
      simp only [listWriteAt]
      rw [ih, List.length_set]

/-- A buffer store leaves indices below the store region unchanged. -/
theorem listWriteAt_get?_lt :
    ∀ (vs b : List Nat) (off idx : Nat), idx < off →
      (listWriteAt b off vs).get? idx = b.get? idx := by
  intro vs
  induction vs with
  | nil => intro b off idx _; rfl
  | cons v vs ih =>
      intro b off idx hlt
      simp only [listWriteAt]
      rw [ih _ _ _ (by omega), List.get?_set_ne v b (by omega : off ≠ idx)]

/-- A buffer store leaves indices past the store region unchanged. -/
theorem listWriteAt_get?_ge :
    ∀ (vs b : List Nat) (off idx : Nat), off + vs.length ≤ idx →
      (listWriteAt b off vs).get? idx = b.get? idx := by
  intro vs
  induction vs with
  | nil => intro b off idx _; rfl
  | cons v vs ih =>
      intro b off idx hge
      simp only [listWriteAt]
      rw [ih _ _ _ (by simp at hge ⊢; omega), List.get?_set_ne v b (by simp at hge; omega : off ≠ idx)]

/-- A buffer store places the stored bytes at their offsets. -/
theorem listWriteAt_get?_in :
    ∀ (vs b : List Nat) (off j : Nat), j < vs.length → off + vs.length ≤ b.length →
      (listWriteAt b off vs).get? (off + j) = vs.get? j := by
  intro vs
  induction vs with
  | nil =>
      intro b off j hj _
      simp at hj
  | cons v vs ih =>
      intro b off j hj hb
      cases j with
      | zero =>
          simp only [listWriteAt]
          rw [listWriteAt_get?_lt _ _ _ _ (by omega)]
          rw [Nat.add_zero]
          have hlt : off < b.length := by simp at hb; omega
          rw [List.get?_set_eq, List.get?_eq_get hlt]
          rfl
      | succ j =>
          simp only [listWriteAt]
          have h1 : off + (j + 1) = (off + 1) + j := by omega
          rw [h1, ih _ _ _ (by simp at hj; omega) (by simp at hb ⊢; omega)]
          rfl

/-- The byte serialisation has the requested width. -/
theorem toBytesLE_length (v n : Nat) : (toBytesLE v n).length = n := by
  induction n generalizing v with
  | zero => rfl
  | succ n ih => simp [toBytesLE, ih]

/-- Two equal-length buffers agree on a window if they agree pointwise on it. -/
theorem window_ext (L1 L2 : List Nat) (a n : Nat)
    (h1 : a + n ≤ L1.length) (h2 : a + n ≤ L2.length)
    (hpt : ∀ j, j < n → L1.get? (a + j) = L2.get? (a + j)) :
    (L1.drop a).take n = (L2.drop a).take n := by
  apply List.ext_get?
  intro j
  by_cases hj : j < n
  · rw [List.get?_take hj, List.get?_take hj, List.get?_drop, List.get?_drop]
    exact hpt j hj
  · have e1 : ((L1.drop a).take n).get? j = none := by
      rw [List.get?_eq_none]
      simp
      omega
    have e2 : ((L2.drop a).take n).get? j = none := by
      rw [List.get?_eq_none]
      simp
      omega
    rw [e1, e2]

/-- After a successful data-writer call, the target window holds exactly the
value's low-order bytes. -/
theorem cyaml_data_write_readBytes (v n : Nat) (p : Ptr) (h h2 : Heap)
    (hw : cyaml_data_write v n p h = (CYAML_OK, h2)) :
    readBytesAt h2 p n = some (toBytesLE v n) := by
  unfold cyaml_data_write at hw
  rcases hb : h.get? p.block with _ | b
  · rw [hb] at hw
    simp at hw
  · rw [hb] at hw
    dsimp only at hw
    by_cases hbound : p.off + n ≤ b.length
    · rw [if_pos hbound] at hw
      have hh2 : h2 = h.set p.block (listWriteAt b p.off (toBytesLE v n)) := by
        have := congrArg Prod.snd hw
        simpa using this.symm
      subst hh2
      unfold readBytesAt
      have hblk : p.block < h.length := by
        by_contra hc
        rw [List.get?_eq_none.mpr (by omega)] at hb
        exact Option.noConfusion hb
      have hget : (h.set p.block (listWriteAt b p.off (toBytesLE v n))).get? p.block =
          some (listWriteAt b p.off (toBytesLE v n)) := by
        rw [List.get?_set_eq, hb]
        rfl
      rw [hget]
      dsimp only
      have hlen : (listWriteAt b p.off (toBytesLE v n)).length = b.length :=
        listWriteAt_length _ _ _
      rw [if_pos (by rw [hlen]; exact hbound)]
      congr 1
      apply List.ext_get?
      intro j
      by_cases hj : j < n
      · rw [List.get?_take hj, List.get?_drop]
        rw [listWriteAt_get?_in _ _ _ _ (by rw [toBytesLE_length]; exact hj)
          (by rw [toBytesLE_length]; exact hbound)]
      · have e1 : (((listWriteAt b p.off (toBytesLE v n)).drop p.off).take n).get? j = none := by
          rw [List.get?_eq_none]
          simp
          omega
        have e2 : (toBytesLE v n).get? j = none := by
          rw [List.get?_eq_none, toBytesLE_length]
          omega
        rw [e1, e2]
    · rw [if_neg hbound] at hw
      simp at hw

/-- Claim C10: in a non-SEQUENCE_FIXED sequence append, the incremented
element count is written into the parent's count field before the element's
value is handled: when the placement step and the count write succeed and the
value handler then fails, the heap passed to the value handler already holds
`count + 1` in the count field, and the handler's error is what the append
returns. -/
theorem C10_count_before_value (ctx : cyaml_ctx) (ev : yaml_event)
    (st : cyaml_state) (rest : List cyaml_state)
    (hs : ctx.stack = st :: rest)
    (hnf : st.schema.type ≠ CYAML_SEQUENCE_FIXED)
    (ctx1 : cyaml_ctx) (vd : Ptr)
    (hp : cyaml__data_handle_pointer ctx st.schema ev st.data = (CYAML_OK, ctx1, vd))
    (st1 : cyaml_state) (rest1 : List cyaml_state)
    (hs1 : ctx1.stack = st1 :: rest1)
    (h2 : Heap)
    (hw : cyaml_data_write (st1.count + 1) st1.count_size st1.count_data ctx1.heap =
      (CYAML_OK, h2))
    (E : cyaml_schema_type) (hE : st.schema.seqSchema = some E)
    (e : cyaml_err) (ctx3 : cyaml_ctx)
    (hv : cyaml__read_value
        { ctx1 with stack := { st1 with count := st1.count + 1 } :: rest1, heap := h2 }
        E ⟨vd.block, vd.off + st.schema.data_size * st1.count⟩ ev = (.ret e, ctx3))
    (hne : e ≠ CYAML_OK) :
    cyaml__new_sequence_entry ctx ev = (.ret e, ctx3) ∧
    readBytesAt h2 st1.count_data st1.count_size =
      some (toBytesLE (st1.count + 1) st1.count_size) := by
  constructor
  · unfold cyaml__new_sequence_entry
    rw [hs]
    dsimp only [List.head?]
    rw [hp]
    dsimp only
    rw [if_neg (by simp)]
    rw [hs1]
    dsimp only
    rw [if_pos hnf]
    rw [hw]
    dsimp only
    rw [if_neg (by simp)]
    rw [hE]
    exact hv
  · exact cyaml_data_write_readBytes _ _ _ _ _ hw

/-- Witness for C10: appending the unparsable scalar `zz` to a fresh INT8
sequence propagates `CYAML_ERR_INVALID_VALUE`, and the count field of the
heap handed to the value handler already held 1. -/
theorem C10_count_before_value_witness :
    cyaml__new_sequence_entry ctxSeqFreshW ⟨yaml_event_type.scalar, "zz"⟩ =
      (.ret CYAML_ERR_INVALID_VALUE,
        (cyaml__read_value
          { (cyaml__data_handle_pointer ctxSeqFreshW seqInt8W
              ⟨yaml_event_type.scalar, "zz"⟩ ⟨0, 0⟩).2.1 with
            stack := [{ seqFrameAfterW with count := 0 + 1 }],
            heap := (cyaml_data_write (0 + 1) 4 ⟨0, 8⟩
              (cyaml__data_handle_pointer ctxSeqFreshW seqInt8W
                ⟨yaml_event_type.scalar, "zz"⟩ ⟨0, 0⟩).2.1.heap).2 }
          elemInt8W ⟨1, 0 + 8 * 0⟩ ⟨yaml_event_type.scalar, "zz"⟩).2) ∧
    readBytesAt (cyaml_data_write (0 + 1) 4 ⟨0, 8⟩
        (cyaml__data_handle_pointer ctxSeqFreshW seqInt8W
          ⟨yaml_event_type.scalar, "zz"⟩ ⟨0, 0⟩).2.1.heap).2 ⟨0, 8⟩ 4 =
      some (toBytesLE (0 + 1) 4) :=
  C10_count_before_value ctxSeqFreshW ⟨yaml_event_type.scalar, "zz"⟩
    seqFrameFreshW [] rfl (by decide)
    (cyaml__data_handle_pointer ctxSeqFreshW seqInt8W
      ⟨yaml_event_type.scalar, "zz"⟩ ⟨0, 0⟩).2.1 ⟨1, 0⟩ rfl
    { seqFrameAfterW with count := 0 } [] rfl
    (cyaml_data_write (0 + 1) 4 ⟨0, 8⟩
      (cyaml__data_handle_pointer ctxSeqFreshW seqInt8W
        ⟨yaml_event_type.scalar, "zz"⟩ ⟨0, 0⟩).2.1.heap).2 rfl
    elemInt8W rfl CYAML_ERR_INVALID_VALUE
    (cyaml__read_value
      { (cyaml__data_handle_pointer ctxSeqFreshW seqInt8W
          ⟨yaml_event_type.scalar, "zz"⟩ ⟨0, 0⟩).2.1 with
        stack := [{ seqFrameAfterW with count := 0 + 1 }],
        heap := (cyaml_data_write (0 + 1) 4 ⟨0, 8⟩
          (cyaml__data_handle_pointer ctxSeqFreshW seqInt8W
            ⟨yaml_event_type.scalar, "zz"⟩ ⟨0, 0⟩).2.1.heap).2 }
      elemInt8W ⟨1, 0 + 8 * 0⟩ ⟨yaml_event_type.scalar, "zz"⟩).2 rfl (by decide)

/-- `realloc` always yields a block of the requested size in this model. -/
theorem reallocPreserve_length (l : List Nat) (n : Nat) :
    (reallocPreserve l n).length = n := by
  unfold reallocPreserve zeros
  simp
  omega

/-- Window reads ignore writes to other blocks. -/
theorem readBytesAt_set_ne (h : Heap) (i : Nat) (blk : List Nat) (p : Ptr) (n : Nat)
    (hne : i ≠ p.block) :
    readBytesAt (h.set i blk) p n = readBytesAt h p n := by
  unfold readBytesAt
  rw [List.get?_set_ne blk h hne]

/-- Window reads ignore freshly appended blocks. -/
theorem readBytesAt_append (h : Heap) (blk : List Nat) (p : Ptr) (n : Nat)
    (hlt : p.block < h.length) :
    readBytesAt (h ++ [blk]) p n = readBytesAt h p n := by
  unfold readBytesAt
  rw [List.get?_append hlt]

/-- Window reads ignore same-block buffer stores to a disjoint byte range. -/
theorem readBytesAt_write_disjoint (h : Heap) (i : Nat) (bOld : List Nat)
    (hb : h.get? i = some bOld) (off : Nat) (vs : List Nat) (p : Ptr) (n : Nat)
    (hpi : p.block = i)
    (hdis : p.off + n ≤ off ∨ off + vs.length ≤ p.off) :
    readBytesAt (h.set i (listWriteAt bOld off vs)) p n = readBytesAt h p n := by
  unfold readBytesAt
  subst hpi
  have hset : (h.set p.block (listWriteAt bOld off vs)).get? p.block =
      some (listWriteAt bOld off vs) := by
    rw [List.get?_set_eq, hb]
    rfl
  rw [hset, hb]
  dsimp only
  have hlen : (listWriteAt bOld off vs).length = bOld.length := listWriteAt_length _ _ _
  rw [hlen]
  by_cases hbound : p.off + n ≤ bOld.length
  · rw [if_pos hbound, if_pos hbound]
    congr 1
    apply window_ext _ _ _ _ (by rw [hlen]; exact hbound) hbound
    intro j hj
    rcases hdis with hd | hd
    · exact listWriteAt_get?_lt _ _ _ _ (by omega)
    · exact listWriteAt_get?_ge _ _ _ _ (by omega)
  · rw [if_neg hbound, if_neg hbound]

/-- Behaviour of the placement engine for a pointer-flagged, non-STRING
schema while the top frame is a sequence frame and allocations succeed:
create or extend the element block, record it in the frame, and write its
address into the slot. -/
theorem data_handle_pointer_seq_spec (ctx : cyaml_ctx) (S : cyaml_schema_type)
    (ev : yaml_event) (pd : Ptr) (fr : cyaml_state) (rest : List cyaml_state)
    (hstack : ctx.stack = fr :: rest)
    (hfr : fr.state = CYAML_STATE_IN_SEQUENCE)
    (hptr : S.flagPointer = true)
    (hnstr : S.type ≠ CYAML_STRING)
    (halloc : ctx.allocOk = []) :
    cyaml__data_handle_pointer ctx S ev pd =
      (match (match fr.seqData with
         | none => (ctx.heap ++ [zeros (S.data_size * fr.count + S.data_size)],
                    ctx.heap.length)
         | some i =>
             match ctx.heap.get? i with
             | none => (ctx.heap, i)
             | some b => (ctx.heap.set i
                 (listWriteAt (reallocPreserve b (S.data_size * fr.count + S.data_size))
                   (S.data_size * fr.count) (zeros S.data_size)), i)
         : Heap × Nat) with
       | (h2, newId) =>
         match cyaml_data_write (encodePtr ⟨newId, 0⟩) 8 pd h2 with
         | (e, h3) =>
             if e ≠ CYAML_OK then
               (e,
                { ctx with
                    heap := h3, allocOk := [],
                    stack := { fr with seqData := some newId } :: rest },
                pd)
             else
               (CYAML_OK,
                { ctx with
                    heap := h3, allocOk := [],
                    stack := { fr with seqData := some newId } :: rest },
                (⟨newId, 0⟩ : Ptr))) := by
  unfold cyaml__data_handle_pointer
  rw [if_pos hptr]
  have hhead : ctx.stack.head? = some fr := by rw [hstack]; rfl
  have hseq : cyaml_in_sequence ctx = true := by
    unfold cyaml_in_sequence
    rw [hhead]
    simp [hfr]
  rcases hsd : fr.seqData with _ | i
  · simp [hhead, hfr, halloc, hseq, updTop, hstack, hsd, if_neg hnstr, nextAllocOk]
  · rcases hget : ctx.heap.get? i with _ | b
    · simp [hhead, hfr, halloc, hseq, updTop, hstack, hsd, hget, if_neg hnstr, nextAllocOk]
    · simp [hhead, hfr, halloc, hseq, updTop, hstack, hsd, hget, if_neg hnstr, nextAllocOk]

/-- The value handler on a flag-free INT schema and a scalar event is exactly
the integer decoder (the placement engine is a no-op without the pointer
flag). -/
theorem read_value_int_spec (ctx : cyaml_ctx) (E : cyaml_schema_type) (p : Ptr)
    (ev : yaml_event)
    (hint : E.type = CYAML_INT) (hnp : E.flagPointer = false)
    (hev : ev.type = yaml_event_type.scalar) :
    cyaml__read_value ctx E p ev =
      (.ret (cyaml__read_int E ev.value p ctx.heap).1,
       { ctx with heap := (cyaml__read_int E ev.value p ctx.heap).2 }) := by
  unfold cyaml__read_value cyaml__data_handle_pointer cyaml__read_scalar_value
  rcases hri : cyaml__read_int E ev.value p ctx.heap with ⟨e, h2⟩
  simp [hint, hnp, hev, hri]

/-- A decodable in-range scalar writes its low-order bytes at the target. -/
theorem read_int_ok (E : cyaml_schema_type) (s : String) (p : Ptr) (h : Heap)
    (b : List Nat) (hok : readIntOkFor E.data_size s)
    (hb : h.get? p.block = some b) (hbound : p.off + E.data_size ≤ b.length) :
    cyaml__read_int E s p h =
      (CYAML_OK, h.set p.block (listWriteAt b p.off
        (toBytesLE (((strtoll s).val % (2 ^ 64 : Int)).toNat) E.data_size))) := by
  rcases hok with ⟨h1, h2, h3, h4⟩
  rw [read_int_spec, if_neg]
  · unfold cyaml_data_write
    rw [hb]
    dsimp only
    rw [if_pos hbound]
  · push_neg
    refine ⟨by simp [h1], by simp [h2], by linarith, by linarith⟩

/-- An index with a successful heap lookup is inside the heap. -/
theorem get?_lt_length {α : Type} (l : List α) (n : Nat) (b : α)
    (hb : l.get? n = some b) : n < l.length := by
  by_contra hc
  rw [List.get?_eq_none.mpr (by omega)] at hb
  exact Option.noConfusion hb

/-- Final stage of a C4 step: the value handler decodes the INT element into
the freshly placed slot and the invariant holds at `k + 1`. -/
theorem C4_read_stage (S E : cyaml_schema_type) (cd pd : Ptr)
    (rest : List cyaml_state) (hp0 : Heap) (k newId : Nat) (ctx4 : cyaml_ctx)
    (ev : yaml_event) (fr2 : cyaml_state)
    (hSch : C4Schema S E)
    (hstack4 : ctx4.stack = fr2 :: rest)
    (hfrS : fr2.schema = S) (hfrk : fr2.count = k + 1)
    (hfrst : fr2.state = CYAML_STATE_IN_SEQUENCE)
    (hfrcd : fr2.count_data = cd) (hfrcsz : fr2.count_size = S.count_size)
    (hfrpd : fr2.data = pd) (hfrsd : fr2.seqData = some newId)
    (halloc4 : ctx4.allocOk = [])
    (nb : List Nat)
    (hnb4 : ctx4.heap.get? newId = some nb)
    (hnblen : nb.length = S.data_size * k + S.data_size)
    (cblk4 pblk4 : List Nat)
    (hcd4 : ctx4.heap.get? cd.block = some cblk4)
    (hcd4b : cd.off + S.count_size ≤ cblk4.length)
    (hpd4 : ctx4.heap.get? pd.block = some pblk4)
    (hpd4b : pd.off + 8 ≤ pblk4.length)
    (hneCd : newId ≠ cd.block) (hnePd : newId ≠ pd.block)
    (hcount4 : S.type ≠ CYAML_SEQUENCE_FIXED →
       readBytesAt ctx4.heap cd S.count_size = some (toBytesLE (k + 1) S.count_size))
    (hfix4 : S.type = CYAML_SEQUENCE_FIXED →
       readBytesAt ctx4.heap cd S.count_size = readBytesAt hp0 cd S.count_size)
    (hev : ev.type = yaml_event_type.scalar)
    (hok : readIntOkFor S.data_size ev.value) :
    (cyaml__read_value ctx4 E ⟨newId, 0 + S.data_size * k⟩ ev).1 = .ret CYAML_OK ∧
    C4Inv S cd pd rest hp0 (k + 1) (cyaml__read_value ctx4 E ⟨newId, 0 + S.data_size * k⟩ ev).2 := by
  obtain ⟨hty, hptr, hE, hEint, hEnp, hEsz, hszpos⟩ := hSch
  have hokE : readIntOkFor E.data_size ev.value := by rw [hEsz]; exact hok
  have hbound : (⟨newId, 0 + S.data_size * k⟩ : Ptr).off + E.data_size ≤ nb.length := by
    dsimp only
    rw [hEsz, hnblen]
    omega
  rw [read_value_int_spec ctx4 E _ ev hEint hEnp hev,
      read_int_ok E ev.value _ ctx4.heap nb hokE hnb4 hbound]
  refine ⟨rfl, ?_⟩
  constructor
  · exact halloc4
  refine ⟨⟨fr2, by rw [hstack4], hfrst, hfrS, hfrk, hfrcd, hfrcsz, hfrpd, ?_⟩, ?_, ?_, ?_, ?_⟩
  · rw [hfrsd]
    refine ⟨hneCd, hnePd, ?_⟩
    refine ⟨listWriteAt nb (0 + S.data_size * k)
      (toBytesLE (((strtoll ev.value).val % (2 ^ 64 : Int)).toNat) E.data_size), ?_, ?_⟩
    · dsimp only
      rw [List.get?_set_eq, hnb4]
      rfl
    · rw [listWriteAt_length, hnblen, Nat.mul_succ]
  · refine ⟨cblk4, ?_, hcd4b⟩
    dsimp only
    rw [List.get?_set_ne _ _ hneCd]
    exact hcd4
  · refine ⟨pblk4, ?_, hpd4b⟩
    dsimp only
    rw [List.get?_set_ne _ _ hnePd]
    exact hpd4
  · intro hnf h1
    dsimp only
    rw [readBytesAt_set_ne _ _ _ _ _ hneCd]
    exact hcount4 hnf
  · intro hfx
    dsimp only
    rw [readBytesAt_set_ne _ _ _ _ _ hneCd]
    exact hfix4 hfx

/-- Core of the C4 step: given that the placement engine produced the element
block `newId` (already regrown to hold `k + 1` elements inside `heap3`, with
the parent's pointer slot rewritten), one `cyaml__new_sequence_entry` call
returns CYAML_OK and re-establishes the sequence-frame invariant at `k + 1`. -/
theorem C4_step_core (S E : cyaml_schema_type) (cd pd : Ptr)
    (rest : List cyaml_state) (hp0 : Heap) (k : Nat) (ctx : cyaml_ctx)
    (ev : yaml_event)
    (hSch : C4Schema S E)
    (fr : cyaml_state)
    (hstack : ctx.stack = fr :: rest)
    (hfrS : fr.schema = S) (hfrk : fr.count = k)
    (hfrst : fr.state = CYAML_STATE_IN_SEQUENCE)
    (hfrcd : fr.count_data = cd) (hfrcsz : fr.count_size = S.count_size)
    (hfrpd : fr.data = pd)
    (hev : ev.type = yaml_event_type.scalar)
    (hok : readIntOkFor S.data_size ev.value)
    (heap3 : Heap) (newId : Nat) (nb cblk3 pblk3 : List Nat)
    (h3new : heap3.get? newId = some nb)
    (hnblen : nb.length = S.data_size * k + S.data_size)
    (h3cd : heap3.get? cd.block = some cblk3)
    (hcd3b : cd.off + S.count_size ≤ cblk3.length)
    (h3pd : heap3.get? pd.block = some pblk3)
    (hpd3b : pd.off + 8 ≤ pblk3.length)
    (hneCd : newId ≠ cd.block) (hnePd : newId ≠ pd.block)
    (h3win : readBytesAt heap3 cd S.count_size = readBytesAt ctx.heap cd S.count_size)
    (hfixed : S.type = CYAML_SEQUENCE_FIXED →
       readBytesAt ctx.heap cd S.count_size = readBytesAt hp0 cd S.count_size)
    (hhpr : cyaml__data_handle_pointer ctx S ev pd =
       (CYAML_OK,
        { ctx with
            heap := heap3, allocOk := [],
            stack := { fr with seqData := some newId } :: rest },
        (⟨newId, 0⟩ : Ptr))) :
    (cyaml__new_sequence_entry ctx ev).1 = .ret CYAML_OK ∧
    C4Inv S cd pd rest hp0 (k + 1) (cyaml__new_sequence_entry ctx ev).2 := by
  obtain ⟨hty, hptr, hE, hEint, hEnp, hEsz, hszpos⟩ := hSch
  have hhead : ctx.stack.head? = some fr := by
    rw [hstack]
    rfl
  have hwc : cyaml_data_write (k + 1) S.count_size cd heap3 =
      (CYAML_OK,
       heap3.set cd.block (listWriteAt cblk3 cd.off (toBytesLE (k + 1) S.count_size))) := by
    unfold cyaml_data_write
    rw [h3cd]
    dsimp only
    rw [if_pos hcd3b]
  rcases hty with hty | hty
  · -- CYAML_SEQUENCE: the count field is written before the value is read
    have hassm : cyaml__new_sequence_entry ctx ev =
        cyaml__read_value
          { ctx with
              heap := heap3.set cd.block
                (listWriteAt cblk3 cd.off (toBytesLE (k + 1) S.count_size)),
              allocOk := [],
              stack := { fr with seqData := some newId, count := k + 1 } :: rest }
          E ⟨newId, 0 + S.data_size * k⟩ ev := by
      unfold cyaml__new_sequence_entry
      rw [hhead]
      dsimp only
      rw [hfrS, hfrpd]
      rw [hhpr]
      dsimp only
      rw [if_neg (by simp)]
      try dsimp only
      rw [hfrS, hfrcd, hfrcsz, hfrk, hfrpd]
      rw [if_pos (show S.type ≠ cyaml_type.CYAML_SEQUENCE_FIXED from by simp [hty])]
      rw [hwc]
      rw [hE]
      rfl
    obtain ⟨p4, h4pdget, h4pdb⟩ :
        ∃ p4, (heap3.set cd.block
          (listWriteAt cblk3 cd.off (toBytesLE (k + 1) S.count_size))).get? pd.block =
            some p4 ∧ pd.off + 8 ≤ p4.length := by
      by_cases hcp : cd.block = pd.block
      · refine ⟨listWriteAt cblk3 cd.off (toBytesLE (k + 1) S.count_size), ?_, ?_⟩
        · rw [← hcp, List.get?_set_eq, h3cd]
          rfl
        · rw [listWriteAt_length]
          rw [← hcp] at h3pd
          rw [← Option.some.inj (h3pd.symm.trans h3cd)]
          exact hpd3b
      · refine ⟨pblk3, ?_, hpd3b⟩
        rw [List.get?_set_ne _ _ hcp]
        exact h3pd
    rw [hassm]
    exact C4_read_stage S E cd pd rest hp0 k newId
      { ctx with
          heap := heap3.set cd.block
            (listWriteAt cblk3 cd.off (toBytesLE (k + 1) S.count_size)),
          allocOk := [],
          stack := { fr with seqData := some newId, count := k + 1 } :: rest }
      ev { fr with seqData := some newId, count := k + 1 }
      ⟨Or.inl hty, hptr, hE, hEint, hEnp, hEsz, hszpos⟩ rfl hfrS rfl hfrst hfrcd
      hfrcsz hfrpd rfl rfl
      nb (by dsimp only
             rw [List.get?_set_ne _ _ (Ne.symm hneCd)]
             exact h3new)
      hnblen
      (listWriteAt cblk3 cd.off (toBytesLE (k + 1) S.count_size))
      p4
      (by dsimp only
          rw [List.get?_set_eq, h3cd]
          rfl)
      (by rw [listWriteAt_length]
          exact hcd3b)
      h4pdget h4pdb hneCd hnePd
      (fun _ => by
        dsimp only
        exact cyaml_data_write_readBytes _ _ _ _ _ hwc)
      (fun hfx => by
        rw [hty] at hfx
        exact absurd hfx (by decide))
      hev hok
  · -- CYAML_SEQUENCE_FIXED: the count write is skipped
    have hassm : cyaml__new_sequence_entry ctx ev =
        cyaml__read_value
          { ctx with
              heap := heap3, allocOk := [],
              stack := { fr with seqData := some newId, count := k + 1 } :: rest }
          E ⟨newId, 0 + S.data_size * k⟩ ev := by
      unfold cyaml__new_sequence_entry
      rw [hhead]
      dsimp only
      rw [hfrS, hfrpd]
      rw [hhpr]
      dsimp only
      rw [if_neg (by simp)]
      try dsimp only
      rw [hfrS, hfrcd, hfrcsz, hfrk, hfrpd]
      rw [if_neg (show ¬S.type ≠ cyaml_type.CYAML_SEQUENCE_FIXED from by simp [hty])]
      rw [hE]
      rfl
    rw [hassm]
    exact C4_read_stage S E cd pd rest hp0 k newId
      { ctx with
          heap := heap3, allocOk := [],
          stack := { fr with seqData := some newId, count := k + 1 } :: rest }
      ev { fr with seqData := some newId, count := k + 1 }
      ⟨Or.inr hty, hptr, hE, hEint, hEnp, hEsz, hszpos⟩ rfl hfrS rfl hfrst hfrcd
      hfrcsz hfrpd rfl rfl
      nb h3new hnblen cblk3 pblk3 h3cd hcd3b h3pd hpd3b hneCd hnePd
      (fun hnf => absurd hty hnf)
      (fun _ => h3win.trans (hfixed hty))
      hev hok

/-- Writing the element block's address into the parent's pointer slot leaves
the element block, the parent's count block and the count window intact (count
field and pointer slot are disjoint by `C4Disjoint`). -/
theorem C4_slot_write_facts (S : cyaml_schema_type) (cd pd : Ptr)
    (hDis : C4Disjoint S cd pd)
    (heap2 : Heap) (newId : Nat) (nb cblk2 pblk2 w : List Nat)
    (hwlen : w.length = 8)
    (h2new : heap2.get? newId = some nb)
    (h2cd : heap2.get? cd.block = some cblk2)
    (h2pd : heap2.get? pd.block = some pblk2)
    (hnePd : newId ≠ pd.block) :
    (heap2.set pd.block (listWriteAt pblk2 pd.off w)).get? newId = some nb ∧
    (∃ c3, (heap2.set pd.block (listWriteAt pblk2 pd.off w)).get? cd.block = some c3 ∧
       c3.length = cblk2.length) ∧
    (heap2.set pd.block (listWriteAt pblk2 pd.off w)).get? pd.block =
      some (listWriteAt pblk2 pd.off w) ∧
    readBytesAt (heap2.set pd.block (listWriteAt pblk2 pd.off w)) cd S.count_size =
      readBytesAt heap2 cd S.count_size := by
  refine ⟨?_, ?_, ?_, ?_⟩
  · rw [List.get?_set_ne _ _ (Ne.symm hnePd)]
    exact h2new
  · by_cases hpc : pd.block = cd.block
    · refine ⟨listWriteAt pblk2 pd.off w, ?_, ?_⟩
      · rw [← hpc, List.get?_set_eq, h2pd]
        rfl
      · rw [listWriteAt_length]
        rw [hpc] at h2pd
        exact congrArg List.length (Option.some.inj (h2pd.symm.trans h2cd))
    · refine ⟨cblk2, ?_, rfl⟩
      rw [List.get?_set_ne _ _ hpc]
      exact h2cd
  · rw [List.get?_set_eq, h2pd]
    rfl
  · by_cases hpc : pd.block = cd.block
    · apply readBytesAt_write_disjoint heap2 pd.block pblk2 h2pd pd.off w cd
        S.count_size hpc.symm
      rcases hDis with h | h | h
      · exact absurd hpc.symm h
      · exact Or.inl h
      · right
        rw [hwlen]
        exact h
    · exact readBytesAt_set_ne _ _ _ _ _ hpc

/-- One admitted sequence entry (a decodable in-range scalar) advances the C4
sequence-frame invariant from `k` to `k + 1` entries and returns CYAML_OK. -/
theorem C4_step (S E : cyaml_schema_type) (cd pd : Ptr)
    (rest : List cyaml_state) (hp0 : Heap) (k : Nat) (ctx : cyaml_ctx)
    (ev : yaml_event)
    (hSch : C4Schema S E) (hDis : C4Disjoint S cd pd)
    (hInv : C4Inv S cd pd rest hp0 k ctx)
    (hev : ev.type = yaml_event_type.scalar)
    (hok : readIntOkFor S.data_size ev.value) :
    (cyaml__new_sequence_entry ctx ev).1 = .ret CYAML_OK ∧
    C4Inv S cd pd rest hp0 (k + 1) (cyaml__new_sequence_entry ctx ev).2 := by
  obtain ⟨halloc, ⟨fr, hstack, hfrst, hfrS, hfrk, hfrcd, hfrcsz, hfrpd, hsdm⟩,
    ⟨cblk, hcblk, hcb⟩, ⟨pblk, hpblk, hpb⟩, hcount, hfix⟩ := hInv
  have hptr : S.flagPointer = true := hSch.2.1
  have hnstr : S.type ≠ CYAML_STRING := by
    rcases hSch.1 with h | h <;> rw [h] <;> decide
  have hhpr0 := data_handle_pointer_seq_spec ctx S ev pd fr rest hstack hfrst hptr
    hnstr halloc
  rcases hsd : fr.seqData with _ | i
  · -- no element block yet: a fresh block is appended to the heap
    have hltP : pd.block < ctx.heap.length := get?_lt_length _ _ _ hpblk
    have hltC : cd.block < ctx.heap.length := get?_lt_length _ _ _ hcblk
    have h2pd : (ctx.heap ++ [zeros (S.data_size * k + S.data_size)]).get? pd.block
        = some pblk := by
      rw [List.get?_append hltP]
      exact hpblk
    have h2cd : (ctx.heap ++ [zeros (S.data_size * k + S.data_size)]).get? cd.block
        = some cblk := by
      rw [List.get?_append hltC]
      exact hcblk
    have h2new : (ctx.heap ++ [zeros (S.data_size * k + S.data_size)]).get?
        ctx.heap.length = some (zeros (S.data_size * k + S.data_size)) := by
      rw [List.get?_concat_length]
    have hw : cyaml_data_write (encodePtr ⟨ctx.heap.length, 0⟩) 8 pd
        (ctx.heap ++ [zeros (S.data_size * k + S.data_size)]) =
        (CYAML_OK, (ctx.heap ++ [zeros (S.data_size * k + S.data_size)]).set pd.block
          (listWriteAt pblk pd.off (toBytesLE (encodePtr ⟨ctx.heap.length, 0⟩) 8))) := by
      unfold cyaml_data_write
      rw [h2pd]
      dsimp only
      rw [if_pos hpb]
    rw [hsd, hfrk] at hhpr0
    try dsimp only at hhpr0
    rw [hw] at hhpr0
    try dsimp only at hhpr0
    rw [if_neg (show ¬((CYAML_OK : cyaml_err) ≠ CYAML_OK) from by simp)] at hhpr0
    obtain ⟨h3new, ⟨c3, h3cd, h3cdlen⟩, h3pd, h3win⟩ :=
      C4_slot_write_facts S cd pd hDis
        (ctx.heap ++ [zeros (S.data_size * k + S.data_size)]) ctx.heap.length
        (zeros (S.data_size * k + S.data_size)) cblk pblk
        (toBytesLE (encodePtr ⟨ctx.heap.length, 0⟩) 8)
        (toBytesLE_length _ _) h2new h2cd h2pd (by omega)
    exact C4_step_core S E cd pd rest hp0 k ctx ev hSch fr hstack hfrS hfrk hfrst
      hfrcd hfrcsz hfrpd hev hok
      ((ctx.heap ++ [zeros (S.data_size * k + S.data_size)]).set pd.block
        (listWriteAt pblk pd.off (toBytesLE (encodePtr ⟨ctx.heap.length, 0⟩) 8)))
      ctx.heap.length (zeros (S.data_size * k + S.data_size)) c3
      (listWriteAt pblk pd.off (toBytesLE (encodePtr ⟨ctx.heap.length, 0⟩) 8))
      h3new (by simp [zeros]) h3cd (by rw [h3cdlen]; exact hcb)
      h3pd (by rw [listWriteAt_length]; exact hpb)
      (by omega) (by omega)
      (h3win.trans (readBytesAt_append _ _ _ _ hltC)) hfix (by rw [hfrk]; exact hhpr0)
  · -- existing element block `i`: it is regrown in place
    rw [hsd] at hsdm
    try dsimp only at hsdm
    obtain ⟨hiCd, hiPd, blk, hgeti, hblen⟩ := hsdm
    obtain ⟨nb, hnbdef⟩ : ∃ nb, listWriteAt (reallocPreserve blk
        (S.data_size * k + S.data_size)) (S.data_size * k) (zeros S.data_size) = nb :=
      ⟨_, rfl⟩
    have hnblen : nb.length = S.data_size * k + S.data_size := by
      rw [← hnbdef, listWriteAt_length, reallocPreserve_length]
    have h2new : (ctx.heap.set i nb).get? i = some nb := by
      rw [List.get?_set_eq, hgeti]
      rfl
    have h2cd : (ctx.heap.set i nb).get? cd.block = some cblk := by
      rw [List.get?_set_ne _ _ hiCd]
      exact hcblk
    have h2pd : (ctx.heap.set i nb).get? pd.block = some pblk := by
      rw [List.get?_set_ne _ _ hiPd]
      exact hpblk
    have hw : cyaml_data_write (encodePtr ⟨i, 0⟩) 8 pd (ctx.heap.set i nb) =
        (CYAML_OK, (ctx.heap.set i nb).set pd.block
          (listWriteAt pblk pd.off (toBytesLE (encodePtr ⟨i, 0⟩) 8))) := by
      unfold cyaml_data_write
      rw [h2pd]
      dsimp only
      rw [if_pos hpb]
    rw [hsd, hfrk] at hhpr0
    try dsimp only at hhpr0
    rw [hgeti] at hhpr0
    try dsimp only at hhpr0
    rw [hnbdef] at hhpr0
    rw [hw] at hhpr0
    try dsimp only at hhpr0
    rw [if_neg (show ¬((CYAML_OK : cyaml_err) ≠ CYAML_OK) from by simp)] at hhpr0
    obtain ⟨h3new, ⟨c3, h3cd, h3cdlen⟩, h3pd, h3win⟩ :=
      C4_slot_write_facts S cd pd hDis (ctx.heap.set i nb) i nb cblk pblk
        (toBytesLE (encodePtr ⟨i, 0⟩) 8) (toBytesLE_length _ _) h2new h2cd h2pd hiPd
    exact C4_step_core S E cd pd rest hp0 k ctx ev hSch fr hstack hfrS hfrk hfrst
      hfrcd hfrcsz hfrpd hev hok
      ((ctx.heap.set i nb).set pd.block
        (listWriteAt pblk pd.off (toBytesLE (encodePtr ⟨i, 0⟩) 8)))
      i nb c3 (listWriteAt pblk pd.off (toBytesLE (encodePtr ⟨i, 0⟩) 8))
      h3new hnblen h3cd (by rw [h3cdlen]; exact hcb)
      h3pd (by rw [listWriteAt_length]; exact hpb)
      hiCd hiPd
      (h3win.trans (readBytesAt_set_ne _ _ _ _ _ hiCd)) hfix (by rw [hfrk]; exact hhpr0)

/-- Folding `C4_step` over a list of admitted entries: `N` decodable scalar
events advance the invariant by `N` and every call returns CYAML_OK. -/
theorem C4_fold (S E : cyaml_schema_type) (cd pd : Ptr)
    (rest : List cyaml_state) (hp0 : Heap)
    (hSch : C4Schema S E) (hDis : C4Disjoint S cd pd) :
    ∀ (evs : List yaml_event) (k : Nat) (ctx : cyaml_ctx),
      C4Inv S cd pd rest hp0 k ctx →
      (∀ e ∈ evs, e.type = yaml_event_type.scalar ∧
         readIntOkFor S.data_size e.value) →
      (runSeqEntries ctx evs).1 = .ret CYAML_OK ∧
      C4Inv S cd pd rest hp0 (k + evs.length) (runSeqEntries ctx evs).2 := by
  intro evs
  induction evs with
  | nil =>
      intro k ctx hInv _
      exact ⟨rfl, by simpa using hInv⟩
  | cons e es ih =>
      intro k ctx hInv hall
      obtain ⟨hok1, hinv1⟩ := C4_step S E cd pd rest hp0 k ctx e hSch hDis hInv
        (hall e (by simp)).1 (hall e (by simp)).2
      rcases hne : cyaml__new_sequence_entry ctx e with ⟨r, ctx2⟩
      rw [hne] at hok1 hinv1
      dsimp only at hok1 hinv1
      subst hok1
      have hred : runSeqEntries ctx (e :: es) = runSeqEntries ctx2 es := by
        simp only [runSeqEntries]
        rw [hne]
      rw [hred]
      obtain ⟨ha, hb⟩ := ih (k + 1) ctx2 hinv1
        (fun e' he' => hall e' (List.mem_cons_of_mem _ he'))
      refine ⟨ha, ?_⟩
      have hlen : k + (e :: es).length = k + 1 + es.length := by
        rw [List.length_cons]
        omega
      rw [hlen]
      exact hb

/-- Claim C4, counterexample: when the element schema itself carries the
owning-pointer flag, one admitted entry leaves the frame's element block at
16 bytes, not `1 * element_size = 8`: the value handler's placement step runs
again for the element schema (the guard at load.c line 524 is on schema kind,
not on being inside a sequence) and regrows the block past `N` elements.  The
count and the parent's count field are still 1. -/
theorem C4_counterexample :
    (runSeqEntries ctxSeqPtrFreshW [⟨yaml_event_type.scalar, "1"⟩]).1 =
      .ret CYAML_OK ∧
    ((runSeqEntries ctxSeqPtrFreshW [⟨yaml_event_type.scalar, "1"⟩]).2.stack.head?.map
      (fun fr => fr.count)) = some 1 ∧
    (((runSeqEntries ctxSeqPtrFreshW [⟨yaml_event_type.scalar, "1"⟩]).2.heap.get? 1).map
      List.length) = some 16 ∧
    seqPtrElemW.data_size * 1 ≠ 16 := by
  refine ⟨rfl, rfl, rfl, by decide⟩

/-- Claim C4 (amended: the elements are flag-free INT scalars, so the value
handler's placement step is a no-op): starting from a sequence frame that
satisfies the invariant with 0 admitted entries, admitting `N` decodable
scalar entry events returns CYAML_OK every time and leaves the frame with
`count = N`, an element block of exactly `N * element_size` bytes, and the
parent's count field reading back `N` — except for SEQUENCE_FIXED, whose
count field still reads exactly as in the initial heap. -/
theorem C4_amended (S E : cyaml_schema_type) (cd pd : Ptr)
    (rest : List cyaml_state) (ctx : cyaml_ctx) (evs : List yaml_event)
    (hSch : C4Schema S E) (hDis : C4Disjoint S cd pd)
    (hInv : C4Inv S cd pd rest ctx.heap 0 ctx)
    (hevs : ∀ e ∈ evs, e.type = yaml_event_type.scalar ∧
       readIntOkFor S.data_size e.value) :
    (runSeqEntries ctx evs).1 = .ret CYAML_OK ∧
    C4Inv S cd pd rest ctx.heap evs.length (runSeqEntries ctx evs).2 := by
  have h := C4_fold S E cd pd rest ctx.heap hSch hDis evs 0 ctx hInv hevs
  simpa using h

/-- Witness for the amended C4: two decodable scalars appended to a fresh
INT8 sequence frame succeed and establish the invariant at 2. -/
theorem C4_amended_witness :
    (runSeqEntries ctxSeqFreshW
      [⟨yaml_event_type.scalar, "1"⟩, ⟨yaml_event_type.scalar, "2"⟩]).1 =
      .ret CYAML_OK ∧
    C4Inv seqInt8W ⟨0, 8⟩ ⟨0, 0⟩ [] ctxSeqFreshW.heap 2
      (runSeqEntries ctxSeqFreshW
        [⟨yaml_event_type.scalar, "1"⟩, ⟨yaml_event_type.scalar, "2"⟩]).2 :=
  C4_amended seqInt8W elemInt8W ⟨0, 8⟩ ⟨0, 0⟩ [] ctxSeqFreshW
    [⟨yaml_event_type.scalar, "1"⟩, ⟨yaml_event_type.scalar, "2"⟩]
    ⟨Or.inl rfl, rfl, rfl, rfl, rfl, rfl, by decide⟩
    (Or.inr (Or.inr (by decide)))
    ⟨rfl,
     ⟨seqFrameFreshW, rfl, rfl, rfl, rfl, rfl, rfl, rfl, rfl⟩,
     ⟨zeros 16, rfl, by decide⟩, ⟨zeros 16, rfl, by decide⟩,
     fun _ h => absurd h (by decide), fun _ => rfl⟩
    (by decide)
